import Mathlib

/-!
# Asynchronous web server (`aws.c`): a shallow embedding

The C functions of `src/aws.c` are embedded as pure Lean functions.

* A `char` array is a `List Byte` holding the whole array; `0` is the NUL byte.
* Every system call the code makes takes its result from an oracle (`Sys`), so the
  theorems quantify over everything the operating system may answer.
* Each function returns a `Result`: how the call ended, the content of the
  connection object and whether it has been freed, the global `request_path`, the
  bytes the socket accepted and the list of calls made.
* Constants that `aws.c` takes from headers (`BUFSIZ`, `AWS_DOCUMENT_ROOT`) and the
  HTTP parser library are fields of `Config`; the theorems hold for every `Config`.
* The transfer loop of `send_message` takes a bound on its iterations (`fuel`).
-/

namespace Aws

/-! ## Bytes and C strings -/

/-- A C `char`, kept as its numeric value; `0` is the NUL terminator. -/
abbrev Byte := Nat

/-- The bytes of a string literal, without the terminating NUL. -/
def bytes (s : String) : List Byte := s.toList.map Char.toNat

/-- C `strlen` on an array: the number of bytes before the first NUL.  When the
array holds no NUL the C call reads past it; the model stops at the end of the array. -/
def strlen (s : List Byte) : Nat := (s.takeWhile (fun b => b ≠ 0)).length

/-- The C string stored in an array: the bytes before the first NUL. -/
def cstr (s : List Byte) : List Byte := s.takeWhile (fun b => b ≠ 0)

/-- Store `data` into the array `buf` starting at index `off`; `none` when the
store would run past the end of the array. -/
def write_at (buf : List Byte) (off : Nat) (data : List Byte) : Option (List Byte) :=
  if off + data.length ≤ buf.length then
    some (buf.take off ++ data ++ buf.drop (off + data.length))
  else none

/-- C `memset(buf, 0, n)` on an array of `n` bytes. -/
def memset0 (n : Nat) : List Byte := List.replicate n 0

/-- C `memcpy(dst, src, len)`, `src` being the `len` bytes copied. -/
def memcpy (dst src : List Byte) : Option (List Byte) := write_at dst 0 src

/-- C `strcpy(dst, src)`: copies the string and its terminating NUL. -/
def strcpy (dst src : List Byte) : Option (List Byte) := write_at dst 0 (cstr src ++ [0])

/-- C `strcat(dst, src)`: appends the string and its NUL at `strlen dst`. -/
def strcat (dst src : List Byte) : Option (List Byte) :=
  write_at dst (strlen dst) (cstr src ++ [0])

/-- Conversion of a byte count to the C `int` that receives it (`rc = sendfile(...)`). -/
def to_int (n : Nat) : Int := (((n + 2 ^ 31) % 2 ^ 32 : Nat) : Int) - 2 ^ 31

/-- Linux moves at most this many bytes in one `sendfile` call (sendfile(2)). -/
def MAX_RW_COUNT : Nat := 0x7ffff000

/-! ## Configuration, data model, oracle -/

/-- What `aws.c` takes from headers that are not part of `src/`. -/
structure Config where
  /-- The constant `BUFSIZ` of `<stdio.h>`: the capacity of every buffer. -/
  BUFSIZ : Nat
  /-- The string literal `AWS_DOCUMENT_ROOT` of `util/aws.h`. -/
  AWS_DOCUMENT_ROOT : List Byte
  /-- The parser library `http_parser_execute` after `http_parser_init`, as a black
  box: for the byte range it is given, the payloads `(buf, len)` it passes to the
  `on_path` callback, in call order. -/
  http_parser_execute : List Byte → List (List Byte)
  /-- ISO C requires `BUFSIZ` to be at least 256. -/
  BUFSIZ_min : 256 ≤ BUFSIZ
  /-- A string literal holds no NUL before its terminator. -/
  root_is_string : 0 ∉ AWS_DOCUMENT_ROOT

inductive connection_state
  | STATE_DATA_RECEIVED
  | STATE_DATA_SENT
  | STATE_CONNECTION_CLOSED
  deriving DecidableEq

open connection_state

/-- The C `struct connection`. -/
structure connection where
  sockfd : Int
  recv_buffer : List Byte
  recv_len : Nat
  send_buffer : List Byte
  send_len : Nat
  state : connection_state
  pathname : List Byte
  deriving DecidableEq

/-- Answers of the operating system to the calls of one invocation. -/
structure Sys where
  /-- Return value of `get_peer_address`. -/
  peer_rc : Int
  /-- The bytes waiting on the socket for `recv`; `none` when `recv` fails, `some []`
  when the peer has closed. -/
  recv_in : Option (List Byte)
  /-- The file system: the content of the file `open` finds at a path, if any. -/
  fs : List Byte → Option (List Byte)
  /-- The descriptor a successful `open` returns. -/
  new_fd : Nat
  /-- The socket as a transport: for the `i`-th write call (`send` is call `0`, the
  `sendfile` calls follow), `none` when the call fails and `some c` when the socket
  accepts at most `c` bytes of what it is offered. -/
  write_cap : Nat → Option Nat
  /-- Return value of `fstat`. -/
  fstat_rc : Int
  /-- Return value of `w_epoll_update_ptr_in`. -/
  epoll_update_in_rc : Int
  /-- Return value of `w_epoll_update_ptr_inout`. -/
  epoll_update_inout_rc : Int
  /-- Return value of `w_epoll_remove_ptr`. -/
  epoll_remove_rc : Int

/-- The calls a function makes, as recorded in `Result.calls`. -/
inductive Call
  | get_peer_address (rc : Int)
  | recv (offset count : Nat) (rc : Int)
  | http_parser_execute (data : List Byte)
  | on_path_cb (buf : List Byte)
  | open_file (pathname : List Byte) (fd : Int)
  | send (data : List Byte) (rc : Int)
  | fstat (rc : Int)
  | sendfile (offset count : Nat) (rc : Int)
  | w_epoll_update_ptr_in (rc : Int)
  | w_epoll_update_ptr_inout (rc : Int)
  | w_epoll_remove_ptr (rc : Int)
  | connection_remove
  deriving DecidableEq

/-- How an invocation ends. -/
inductive Outcome
  /-- The function returned this value. -/
  | returned (st : connection_state)
  /-- A function of return type `void` returned. -/
  | done
  /-- Modelled from the spec: the macro `DIE` of `util/util.h` (not under `src/`);
  the spec says of the source that "several per-connection failures abort the
  entire process".  The argument is the call description given to `DIE`. -/
  | exited (call : String)
  /-- A store ran past the end of a buffer. -/
  | overflow
  deriving DecidableEq

/-- The state an invocation leaves behind. -/
structure Result where
  outcome : Outcome
  /-- The content of the connection object (its last content, once freed). -/
  conn : connection
  /-- Whether `connection_remove` has freed the connection object. -/
  freed : Bool
  /-- The global `request_path`. -/
  request_path : List Byte
  /-- The bytes the socket accepted during the invocation, in order. -/
  wire : List Byte
  calls : List Call

/-! ## The functions of `aws.c` -/

/-- The code at the label `remove_connection:` shared by `receive_message` and
`send_message`, with `connection_remove` inlined (close, mark closed, free). -/
def remove_connection (sys : Sys) (request_path wire : List Byte) (calls : List Call)
    (conn : connection) : Result :=
  if sys.epoll_remove_rc < 0 then
    { outcome := Outcome.exited "w_epoll_remove_ptr", conn := conn, freed := false,
      request_path := request_path, wire := wire,
      calls := calls ++ [Call.w_epoll_remove_ptr sys.epoll_remove_rc] }
  else
    { outcome := Outcome.returned STATE_CONNECTION_CLOSED,
      conn := { conn with state := STATE_CONNECTION_CLOSED }, freed := true,
      request_path := request_path, wire := wire,
      calls := calls ++ [Call.w_epoll_remove_ptr sys.epoll_remove_rc, Call.connection_remove] }

/-- `connection_create`: `malloc` hands out an object with arbitrary content
(`garbage`); only `sockfd` and the two buffers are initialised. -/
def connection_create (cfg : Config) (garbage : connection) (sockfd : Int) : connection :=
  { garbage with sockfd := sockfd,
                 recv_buffer := memset0 cfg.BUFSIZ,
                 send_buffer := memset0 cfg.BUFSIZ }

/-- `receive_message`.  `recv` is asked for up to `BUFSIZ` bytes to be stored at
`recv_buffer + strlen(recv_buffer)`; it takes what is waiting on the socket, `BUFSIZ`
bytes at most.  An empty result is a return value of 0; a store that does not fit the
array ends the run in `Outcome.overflow`. -/
def receive_message (cfg : Config) (sys : Sys) (request_path : List Byte)
    (conn : connection) : Result :=
  let c0 := [Call.get_peer_address sys.peer_rc]
  if sys.peer_rc < 0 then
    remove_connection sys request_path [] c0 conn
  else
    let off := strlen conn.recv_buffer
    match sys.recv_in with
    | none =>
      remove_connection sys request_path [] (c0 ++ [Call.recv off cfg.BUFSIZ (-1)]) conn
    | some avail =>
      let data := avail.take cfg.BUFSIZ
      let c1 := c0 ++ [Call.recv off cfg.BUFSIZ data.length]
      match write_at conn.recv_buffer off data with
      | none =>
        { outcome := Outcome.overflow, conn := conn, freed := false,
          request_path := request_path, wire := [], calls := c1 }
      | some buf =>
        let conn1 := { conn with recv_buffer := buf }
        if data.length = 0 then
          remove_connection sys request_path [] c1 conn1
        else
          { outcome := Outcome.returned STATE_DATA_RECEIVED,
            conn := { conn1 with recv_len := data.length, state := STATE_DATA_RECEIVED },
            freed := false, request_path := request_path, wire := [], calls := c1 }

/-- `on_path_cb`: `memcpy(request_path, buf, len)`; `buf` is the `len` bytes passed.
The callback always returns `0`, so the parser goes on. -/
def on_path_cb (request_path buf : List Byte) : Option (List Byte) :=
  memcpy request_path buf

/-- The `on_path` callbacks of one `http_parser_execute` call, run in order on the
global `request_path`. -/
def run_on_path : List Byte → List (List Byte) → Option (List Byte)
  | request_path, [] => some request_path
  | request_path, buf :: rest =>
    match on_path_cb request_path buf with
    | none => none
    | some rp => run_on_path rp rest

/-- `handle_client_request`.  The parser is initialised anew on every call, so what it
reports depends on the byte range `(recv_buffer, recv_len)` alone. -/
def handle_client_request (cfg : Config) (sys : Sys) (request_path : List Byte)
    (conn : connection) : Result :=
  let r := receive_message cfg sys request_path conn
  match r.outcome with
  | Outcome.returned ret_state =>
    if ret_state = STATE_CONNECTION_CLOSED then r else
    let c := r.conn
    let range := c.recv_buffer.take c.recv_len
    let reported := cfg.http_parser_execute range
    let c1 := r.calls ++ [Call.http_parser_execute range] ++ reported.map Call.on_path_cb
    match run_on_path request_path reported with
    | none =>
      { outcome := Outcome.overflow, conn := c, freed := false,
        request_path := request_path, wire := [], calls := c1 }
    | some rp =>
      match strcpy (memset0 cfg.BUFSIZ) cfg.AWS_DOCUMENT_ROOT with
      | none =>
        { outcome := Outcome.overflow, conn := c, freed := false, request_path := rp,
          wire := [], calls := c1 }
      | some p0 =>
        match strcat p0 rp with
        | none =>
          { outcome := Outcome.overflow, conn := { c with pathname := p0 }, freed := false,
            request_path := rp, wire := [], calls := c1 }
        | some p1 =>
          { outcome := if sys.epoll_update_inout_rc < 0
                       then Outcome.exited "w_epoll_add_ptr_inout" else Outcome.done,
            conn := { c with pathname := p1 }, freed := false, request_path := rp,
            wire := [], calls := c1 ++ [Call.w_epoll_update_ptr_inout sys.epoll_update_inout_rc] }
  | _ => r

/-- The status line sent when the file cannot be opened. -/
def STATUS_404 : List Byte := bytes "HTTP/1.0 404 Not Found\r\n\r\n"

/-- The status line sent when the file has been opened. -/
def STATUS_200 : List Byte := bytes "HTTP/1.0 200 OK\r\n\r\n"

/-- The variables of the `while (sent < st->st_size)` loop of `send_message`,
with the offset of the open file, the index of the next write call on the socket,
the bytes the socket has accepted and the calls made. -/
structure Transfer where
  sent : Int
  bytes_sent : Int
  offset : Nat
  index : Nat
  wire : List Byte
  calls : List Call

/-- How the transfer loop ends. -/
inductive LoopEnd
  /-- The loop condition became false. -/
  | finished (s : Transfer)
  /-- The check `DIE(rc < 0, "sendfile")` fired. -/
  | died (s : Transfer)

/-- The loop `while (sent < st->st_size) { rc = sendfile(sockfd, fd, NULL, st_size); ... }`.
`sendfile` with a NULL offset reads at the offset of the open file and advances it; it
moves at most `count` bytes, at most `MAX_RW_COUNT`, and what the socket accepts.
`fuel` bounds the number of iterations; `none` means the bound was reached. -/
def sendfile_loop (sys : Sys) (file : List Byte) (st_size : Nat) : Nat → Transfer → Option LoopEnd
  | fuel, s =>
    if s.sent < (st_size : Int) then
      match fuel with
      | 0 => none
      | fuel + 1 =>
        match sys.write_cap s.index with
        | none =>
          some (LoopEnd.died { s with index := s.index + 1,
                                      calls := s.calls ++ [Call.sendfile s.offset st_size (-1)] })
        | some c =>
          let moved := ((file.drop s.offset).take (min st_size MAX_RW_COUNT)).take c
          let rc := to_int moved.length
          let s1 := { s with offset := s.offset + moved.length, index := s.index + 1,
                             wire := s.wire ++ moved,
                             calls := s.calls ++ [Call.sendfile s.offset st_size rc] }
          if rc < 0 then some (LoopEnd.died s1)
          else sendfile_loop sys file st_size fuel
                 { s1 with sent := s.sent + rc, bytes_sent := s.bytes_sent + rc }
    else some (LoopEnd.finished s)

/-- The end of `send_message` after the `if (fd != -1)` block: the out notification is
dropped, the state set, and control falls through to `remove_connection:`. -/
def send_message_done (sys : Sys) (request_path wire : List Byte) (calls : List Call)
    (conn : connection) : Result :=
  let c1 := calls ++ [Call.w_epoll_update_ptr_in sys.epoll_update_in_rc]
  if sys.epoll_update_in_rc < 0 then
    { outcome := Outcome.exited "w_epoll_update_ptr_in", conn := conn, freed := false,
      request_path := request_path, wire := wire, calls := c1 }
  else
    remove_connection sys request_path wire c1 { conn with state := STATE_DATA_SENT }

/-- `send_message`.  `fuel` bounds the iterations of the transfer loop; the result is
`none` when the loop has not ended within the bound. -/
def send_message (cfg : Config) (sys : Sys) (fuel : Nat) (request_path : List Byte)
    (conn : connection) : Option Result :=
  let opened := sys.fs (cstr conn.pathname)
  let fd : Int := match opened with
    | some _ => (sys.new_fd : Int)
    | none => -1
  let c0 := [Call.open_file (cstr conn.pathname) fd]
  match strcpy (memset0 cfg.BUFSIZ) (if fd < 0 then STATUS_404 else STATUS_200) with
  | none =>
    some { outcome := Outcome.overflow, conn := conn, freed := false,
           request_path := request_path, wire := [], calls := c0 }
  | some sb =>
    let conn1 := { conn with send_buffer := sb, send_len := strlen sb }
    let c1 := c0 ++ [Call.get_peer_address sys.peer_rc]
    if sys.peer_rc < 0 then
      some (remove_connection sys request_path [] c1 conn1)
    else
      let offered := conn1.send_buffer.take conn1.send_len
      match sys.write_cap 0 with
      | none =>
        some (remove_connection sys request_path [] (c1 ++ [Call.send offered (-1)]) conn1)
      | some c =>
        let accepted := offered.take c
        let bytes_sent : Int := accepted.length
        let c2 := c1 ++ [Call.send offered bytes_sent]
        if bytes_sent = 0 then
          some (remove_connection sys request_path accepted c2 conn1)
        else if fd ≠ -1 then
          let c3 := c2 ++ [Call.fstat sys.fstat_rc]
          if sys.fstat_rc < 0 then
            some { outcome := Outcome.exited "fstat", conn := conn1, freed := false,
                   request_path := request_path, wire := accepted, calls := c3 }
          else
            let file := opened.getD []
            match sendfile_loop sys file file.length fuel
                    { sent := 0, bytes_sent := bytes_sent, offset := 0, index := 1,
                      wire := accepted, calls := c3 } with
            | none => none
            | some (LoopEnd.died s) =>
              some { outcome := Outcome.exited "sendfile", conn := conn1, freed := false,
                     request_path := request_path, wire := s.wire, calls := s.calls }
            | some (LoopEnd.finished s) =>
              some (send_message_done sys request_path s.wire s.calls conn1)
        else
          some (send_message_done sys request_path accepted c2 conn1)

/-! ## The main loop -/

/-- The union `epoll_data_t`: the listening socket is registered with its descriptor,
a connection with the address of its `struct connection`. -/
inductive epoll_data
  | fd (n : Int)
  | ptr (addr : Nat)
  deriving DecidableEq

/-- The member `ptr` of the union, read whatever was stored. -/
def epoll_data.as_ptr : epoll_data → Nat
  | epoll_data.fd n => n.toNat
  | epoll_data.ptr addr => addr

structure epoll_event where
  events : Nat
  data : epoll_data

def EPOLLIN : Nat := 0x001

def EPOLLOUT : Nat := 0x004

/-- The operations the main loop applies to a connection object. -/
inductive Op
  | connection_create
  | handle_client_request
  | send_message
  | connection_remove
  deriving DecidableEq

/-- Whether the server process is still running. -/
inductive Status
  | running
  /-- The process ended in `DIE`. -/
  | exited (call : String)
  /-- A store ran past the end of a buffer. -/
  | overflow
  /-- An operation was applied to a connection object that had been freed. -/
  | use_after_free (op : Op) (addr : Nat)
  /-- The transfer loop did not end within the bound given. -/
  | out_of_fuel
  deriving DecidableEq

/-- The process state: the globals, the live `struct connection` objects by address,
and the operations applied to connection objects so far (with the address they were
applied to), oldest first. -/
structure Server where
  listenfd : Int
  request_path : List Byte
  heap : List (Nat × connection)
  log : List (Op × Nat)

/-- The process state when `main` enters its loop: static storage is zeroed. -/
def Server.init (cfg : Config) (listenfd : Int) : Server :=
  { listenfd := listenfd, request_path := memset0 cfg.BUFSIZ, heap := [], log := [] }

/-- What one iteration of the main loop takes from outside: the event returned by
`w_epoll_wait_infinite`, the answers to the system calls made while it is handled, a
bound for the transfer loop, and the answers `handle_new_connection` needs. -/
structure Wakeup where
  wait_rc : Int
  rev : epoll_event
  sys : Sys
  fuel : Nat
  accept_rc : Int
  /-- The address `malloc` returns; `0` is `NULL`. -/
  malloc_addr : Nat
  garbage : connection
  epoll_add_rc : Int

def Status.of_outcome : Outcome → Status
  | Outcome.returned _ => Status.running
  | Outcome.done => Status.running
  | Outcome.exited call => Status.exited call
  | Outcome.overflow => Status.overflow

/-- Write a connection object back to its address, or drop the address when the
object has been freed. -/
def Server.store (heap : List (Nat × connection)) (addr : Nat) (c : connection)
    (freed : Bool) : List (Nat × connection) :=
  if freed then heap.filter (fun e => e.1 ≠ addr)
  else (addr, c) :: heap.filter (fun e => e.1 ≠ addr)

/-- A call `f(ptr)` of one of the functions that take a `struct connection *`: the
object at the address is read, the function runs on it, and the result is written
back.  The call is logged, and so is the `connection_remove` it ends in, if any. -/
def Server.call (srv : Server) (op : Op) (addr : Nat)
    (f : List Byte → connection → Option Result) : Status × Server :=
  let srv1 := { srv with log := srv.log ++ [(op, addr)] }
  match srv.heap.lookup addr with
  | none => (Status.use_after_free op addr, srv1)
  | some conn =>
    match f srv.request_path conn with
    | none => (Status.out_of_fuel, srv1)
    | some r =>
      (Status.of_outcome r.outcome,
       { srv1 with request_path := r.request_path,
                   heap := Server.store srv.heap addr r.conn r.freed,
                   log := srv1.log ++
                     (if r.freed then [(Op.connection_remove, addr)] else []) })

/-- `handle_new_connection`. -/
def handle_new_connection (cfg : Config) (srv : Server) (w : Wakeup) : Status × Server :=
  if w.accept_rc < 0 then (Status.exited "accept", srv)
  else if w.malloc_addr = 0 then (Status.exited "malloc", srv)
  else
    let conn := connection_create cfg w.garbage w.accept_rc
    let srv1 := { srv with heap := Server.store srv.heap w.malloc_addr conn false,
                           log := srv.log ++ [(Op.connection_create, w.malloc_addr)] }
    if w.epoll_add_rc < 0 then (Status.exited "w_epoll_add_in", srv1)
    else (Status.running, srv1)

/-- The body of the `while (1)` loop of `main`. -/
def main_iteration (cfg : Config) (srv : Server) (w : Wakeup) : Status × Server :=
  if w.wait_rc < 0 then (Status.exited "w_epoll_wait_infinite", srv)
  else if w.rev.data = epoll_data.fd srv.listenfd then
    if w.rev.events &&& EPOLLIN ≠ 0 then handle_new_connection cfg srv w
    else (Status.running, srv)
  else
    let after_in :=
      if w.rev.events &&& EPOLLIN ≠ 0 then
        Server.call srv Op.handle_client_request w.rev.data.as_ptr
          (fun rp conn => some (handle_client_request cfg w.sys rp conn))
      else (Status.running, srv)
    if after_in.1 = Status.running ∧ w.rev.events &&& EPOLLOUT ≠ 0 then
      Server.call after_in.2 Op.send_message w.rev.data.as_ptr
        (fun rp conn => send_message cfg w.sys w.fuel rp conn)
    else after_in

/-- The main loop run on the wake-ups given, as long as the process is running. -/
def main_loop (cfg : Config) : Server → List Wakeup → Status × Server
  | srv, [] => (Status.running, srv)
  | srv, w :: rest =>
    match main_iteration cfg srv w with
    | (Status.running, srv1) => main_loop cfg srv1 rest
    | stopped => stopped

/-! ## Reading the record of calls -/

/-- The `sendfile` calls among the calls made: file offset at the call and return value. -/
def sendfile_calls (calls : List Call) : List (Nat × Int) :=
  calls.filterMap (fun c => match c with
    | Call.sendfile offset _ rc => some (offset, rc)
    | _ => none)

/-- The `send` calls among the calls made: the bytes offered and the return value. -/
def send_calls (calls : List Call) : List (List Byte × Int) :=
  calls.filterMap (fun c => match c with
    | Call.send data rc => some (data, rc)
    | _ => none)

/-- The `recv` calls among the calls made: the offset into `recv_buffer` at which the
data is to be stored and the maximum byte count asked for. -/
def recv_calls (calls : List Call) : List (Nat × Nat) :=
  calls.filterMap (fun c => match c with
    | Call.recv offset count _ => some (offset, count)
    | _ => none)

/-- The byte ranges handed to `http_parser_execute`. -/
def parser_ranges (calls : List Call) : List (List Byte) :=
  calls.filterMap (fun c => match c with
    | Call.http_parser_execute data => some data
    | _ => none)

/-- The payloads the parser reported through `on_path_cb`. -/
def on_path_calls (calls : List Call) : List (List Byte) :=
  calls.filterMap (fun c => match c with
    | Call.on_path_cb buf => some buf
    | _ => none)

/-- The total number of bytes the `sendfile` calls moved. -/
def moved_total (calls : List Call) : Int :=
  ((sendfile_calls calls).map (fun e => e.2)).sum

/-- The `sendfile` calls of a transfer follow one another: each starts at the file
offset the previous one reached, moves at least one byte and stays within the `N`
bytes of the file, and the last one reaches offset `N`. -/
def chained (N : Nat) : Nat → List (Nat × Int) → Prop
  | off, [] => off = N
  | off, (o, rc) :: rest => o = off ∧ 0 < rc ∧ off + rc.toNat ≤ N ∧ chained N (off + rc.toNat) rest

/-! ## A concrete platform and concrete inputs -/

/-- Modelled from the spec: the request-line tokenizer `util/http-parser` (not under
`src/`), for a request line `METHOD SP PATH SP VERSION CRLF`: the path is the bytes
between the first and the second space, reported once when that second space is there. -/
def request_line_path (data : List Byte) : List (List Byte) :=
  let after_method := (data.dropWhile (fun b => b ≠ 32)).drop 1
  let path := after_method.takeWhile (fun b => b ≠ 32)
  if path.length < after_method.length ∧ path ≠ [] then [path] else []

/-- A concrete platform for the examples: `BUFSIZ` is 8192 as in glibc and the document
root is `"./"`; `util/aws.h` is not under `src/`, and the general theorems hold for
every `Config`. -/
def linux : Config :=
  { BUFSIZ := 8192, AWS_DOCUMENT_ROOT := bytes "./", http_parser_execute := request_line_path,
    BUFSIZ_min := by decide, root_is_string := by decide }

/-- The content of a `struct connection` as `malloc` may hand it out. -/
def uninit : connection :=
  { sockfd := 0, recv_buffer := [], recv_len := 0, send_buffer := [], send_len := 0,
    state := STATE_DATA_SENT, pathname := [] }

/-- An operating system on which every call succeeds: no file exists, the peer has
closed its end, and the socket accepts all it is offered. -/
def quiet : Sys :=
  { peer_rc := 0, recv_in := some [], fs := fun _ => none, new_fd := 5,
    write_cap := fun _ => some 8192, fstat_rc := 0, epoll_update_in_rc := 0,
    epoll_update_inout_rc := 0, epoll_remove_rc := 0 }

/-- An operating system that finds the file `F` at the path `.//a.txt`, with a socket
that accepts at most `k0` bytes in `send` and at most `k` bytes in each `sendfile` call. -/
def serving (F : List Byte) (k0 k : Nat) : Sys :=
  { quiet with fs := fun p => if p = bytes ".//a.txt" then some F else none,
               write_cap := fun i => if i = 0 then some k0 else some k }

/-- A connection on which a request for `/a.txt` has been handled: its pathname is
`.//a.txt`. -/
def asked : connection :=
  { connection_create linux uninit 4 with pathname := bytes ".//a.txt" ++ List.replicate 8184 0 }

/-- No file exists and `get_peer_address` fails. -/
def no_peer : Sys := { quiet with peer_rc := -1 }

/-- The file `F` is found at `.//a.txt`; `send` accepts everything and the first
`sendfile` call fails. -/
def broken_pipe (F : List Byte) : Sys :=
  { quiet with fs := fun p => if p = bytes ".//a.txt" then some F else none,
               write_cap := fun i => if i = 0 then some 8192 else none }

/-- A connection object as `connection_create` leaves it. -/
def fresh (sockfd : Int) : connection := connection_create linux uninit sockfd

/-- An operating system on which every call succeeds and `recv` finds the bytes `d`. -/
def incoming (d : List Byte) : Sys := { quiet with recv_in := some d }

/-- A request for `/long.txt`. -/
def get_long : List Byte := bytes "GET /long.txt HTTP/1.0\r\n\r\n"

/-- A request for `/b`. -/
def get_b : List Byte := bytes "GET /b HTTP/1.0\r\n\r\n"

/-- The first 18 bytes of the request line `GET /index.html HTTP/1.0`. -/
def first_chunk : List Byte := bytes "GET /index.html HT"

/-- The rest of that request line and the empty line after it. -/
def second_chunk : List Byte := bytes "TP/1.0\r\n\r\n"

/-- The listening socket (descriptor 3) is readable: a client is waiting; `accept`
returns descriptor 4 and `malloc` the address 1000. -/
def accept_event : Wakeup :=
  { wait_rc := 0, rev := { events := EPOLLIN, data := epoll_data.fd 3 }, sys := quiet,
    fuel := 0, accept_rc := 4, malloc_addr := 1000, garbage := uninit, epoll_add_rc := 0 }

/-- The connection at address 1000 is readable: the request for `/b` has arrived. -/
def request_event : Wakeup :=
  { accept_event with rev := { events := EPOLLIN, data := epoll_data.ptr 1000 },
                      sys := incoming get_b }

/-- The connection at address 1000 is readable and writable, and the peer has closed
its end: `recv` returns 0. -/
def hangup_event : Wakeup :=
  { accept_event with rev := { events := EPOLLIN ||| EPOLLOUT, data := epoll_data.ptr 1000 },
                      sys := quiet }

/-- A socket on which `send` fails. -/
def failing_send : Sys := { quiet with write_cap := fun _ => none }

/-- The file `abc` is found and `send` succeeds, but `fstat` fails. -/
def failing_fstat : Sys := { serving (bytes "abc") 8192 8192 with fstat_rc := -1 }

/-! ## Lemmas on C strings and buffers -/

theorem cstr_append_zeros (S : List Byte) (k : Nat) (h : 0 ∉ S) :
    cstr (S ++ List.replicate k 0) = S := by
  induction S with
  | nil =>
    cases k with
    | zero => simp [cstr]
    | succ k => simp [cstr, List.replicate_succ]
  | cons a S ih =>
    have ha : a ≠ 0 := fun e => h (by simp [e])
    have hS : 0 ∉ S := fun e => h (by simp [e])
    have := ih hS
    simp only [cstr] at this ⊢
    rw [List.cons_append, List.takeWhile_cons, this]
    simp [ha]

theorem strlen_append_zeros (S : List Byte) (k : Nat) (h : 0 ∉ S) :
    strlen (S ++ List.replicate k 0) = S.length := by
  have := cstr_append_zeros S k h
  simp only [cstr] at this
  simp only [strlen, this]

theorem write_at_end (S data : List Byte) (k : Nat) (h : data.length ≤ k) :
    write_at (S ++ List.replicate k 0) S.length data
      = some (S ++ data ++ List.replicate (k - data.length) 0) := by
  unfold write_at
  have h1 : S.length + data.length ≤ (S ++ List.replicate k 0).length := by simp; omega
  rw [if_pos h1]
  simp [List.drop_append, List.take_append]

theorem write_at_start (q p : List Byte) (k : Nat) (h : p.length ≤ q.length + k) :
    write_at (q ++ List.replicate k 0) 0 p
      = some (p ++ q.drop p.length ++ List.replicate (k - (p.length - q.length)) 0) := by
  unfold write_at
  have h1 : 0 + p.length ≤ (q ++ List.replicate k 0).length := by simp; omega
  rw [if_pos h1]
  simp [List.drop_append_eq_append_drop]

theorem take_append_drop_length (X : List Byte) (n : Nat) :
    X.take n ++ X.drop (X.take n).length = X := by
  rcases Nat.le_total n X.length with h | h
  · rw [List.length_take, Nat.min_eq_left h, List.take_append_drop]
  · rw [List.take_of_length_le h, List.drop_length, List.append_nil]

/-! ## The transfer loop -/

theorem to_int_small (n : Nat) (h : n ≤ MAX_RW_COUNT) : to_int n = (n : Int) := by
  unfold to_int
  unfold MAX_RW_COUNT at h
  omega

theorem sendfile_loop_runs (sys : Sys) (F : List Byte)
    (hcap : ∀ i, 1 ≤ i → ∃ c, sys.write_cap i = some c ∧ 1 ≤ c) :
    ∀ (fuel : Nat) (s : Transfer), s.sent = (s.offset : Int) → s.offset ≤ F.length →
      1 ≤ s.index → F.length - s.offset ≤ fuel →
      ∃ s1 steps, sendfile_loop sys F F.length fuel s = some (LoopEnd.finished s1)
        ∧ s1.wire = s.wire ++ F.drop s.offset ∧ s1.sent = (F.length : Int)
        ∧ s1.calls = s.calls ++ steps.map (fun e => Call.sendfile e.1 F.length e.2)
        ∧ chained F.length s.offset steps := by
  intro fuel
  induction fuel with
  | zero =>
    intro s hs hoff _ hfuel
    have hN : s.offset = F.length := by omega
    refine ⟨s, [], ?_, ?_, ?_, ?_, ?_⟩
    · unfold sendfile_loop
      rw [if_neg (by rw [hs, hN]; exact lt_irrefl _)]
    · simp [hN]
    · rw [hs, hN]
    · simp
    · exact hN
  | succ fuel ih =>
    intro s hs hoff hidx hfuel
    by_cases hlt : s.sent < (F.length : Int)
    · obtain ⟨c, hc, hc1⟩ := hcap s.index hidx
      have hoff1 : s.offset < F.length := by rw [hs] at hlt; exact_mod_cast hlt
      obtain ⟨moved, hm⟩ :
          ∃ m, m = ((F.drop s.offset).take (min F.length MAX_RW_COUNT)).take c := ⟨_, rfl⟩
      have hlen : moved.length = min c (min (min F.length MAX_RW_COUNT) (F.length - s.offset)) := by
        rw [hm]; simp
      have hMAX : 0 < MAX_RW_COUNT := by unfold MAX_RW_COUNT; omega
      have hpos : 0 < moved.length := by rw [hlen]; omega
      have hle : moved.length ≤ F.length - s.offset := by rw [hlen]; omega
      have hmax : moved.length ≤ MAX_RW_COUNT := by rw [hlen]; omega
      have hoff2 : s.offset + moved.length ≤ F.length := by omega
      have hfuel2 : F.length - (s.offset + moved.length) ≤ fuel := by omega
      have hrc : to_int moved.length = (moved.length : Int) := to_int_small _ hmax
      have hrc0 : ¬ to_int moved.length < 0 := by rw [hrc]; exact not_lt.mpr (Int.ofNat_nonneg _)
      obtain ⟨s1, steps, h1, h2, h3, h4, h5⟩ := ih
        { s with offset := s.offset + moved.length, index := s.index + 1,
                 wire := s.wire ++ moved,
                 calls := s.calls ++ [Call.sendfile s.offset F.length (to_int moved.length)],
                 sent := s.sent + to_int moved.length,
                 bytes_sent := s.bytes_sent + to_int moved.length }
        (by simp [hrc, hs]) hoff2 (Nat.le_add_left 1 _) hfuel2
      refine ⟨s1, (s.offset, (moved.length : Int)) :: steps, ?_, ?_, h3, ?_, ?_⟩
      · rw [sendfile_loop, if_pos hlt]
        simp only [hc]
        rw [← hm, if_neg hrc0]
        exact h1
      · rw [h2]
        simp only [List.append_assoc]
        have hjoin : moved ++ F.drop (s.offset + moved.length) = F.drop s.offset := by
          rw [← List.drop_drop, hm, List.take_take]
          exact take_append_drop_length _ _
        rw [hjoin]
      · rw [h4, hrc]; simp
      · refine ⟨rfl, by exact_mod_cast hpos, by simpa using hoff2, ?_⟩
        simpa using h5
    · have hN : s.offset = F.length := by rw [hs] at hlt; clear hfuel; omega
      refine ⟨s, [], ?_, ?_, ?_, ?_, ?_⟩
      · unfold sendfile_loop
        rw [if_neg hlt]
      · simp [hN]
      · rw [hs, hN]
      · simp
      · exact hN

/-! ## `send_message` -/

theorem STATUS_200_no_nul : 0 ∉ STATUS_200 := by decide
theorem STATUS_404_no_nul : 0 ∉ STATUS_404 := by decide
theorem STATUS_200_length : STATUS_200.length = 19 := by decide
theorem STATUS_404_length : STATUS_404.length = 26 := by decide

theorem cstr_no_nul (S : List Byte) (h : 0 ∉ S) : cstr S = S := by
  have := cstr_append_zeros S 0 h
  simpa using this

theorem strcpy_memset0 (n : Nat) (S : List Byte) (hS : 0 ∉ S) (hlen : S.length < n) :
    strcpy (memset0 n) S = some (S ++ List.replicate (n - S.length) 0) := by
  unfold strcpy memset0
  rw [cstr_no_nul S hS]
  have h := write_at_start [] (S ++ [0]) n (by simp; omega)
  simp only [List.nil_append] at h
  rw [h]
  have e : n - S.length = (n - (S.length + 1)) + 1 := by omega
  rw [e, List.replicate_succ]
  simp

theorem send_buffer_200 (cfg : Config) :
    strcpy (memset0 cfg.BUFSIZ) STATUS_200
      = some (STATUS_200 ++ List.replicate (cfg.BUFSIZ - 19) 0) := by
  have h := strcpy_memset0 cfg.BUFSIZ STATUS_200 STATUS_200_no_nul
    (by rw [STATUS_200_length]; have := cfg.BUFSIZ_min; omega)
  rwa [STATUS_200_length] at h

theorem send_buffer_404 (cfg : Config) :
    strcpy (memset0 cfg.BUFSIZ) STATUS_404
      = some (STATUS_404 ++ List.replicate (cfg.BUFSIZ - 26) 0) := by
  have h := strcpy_memset0 cfg.BUFSIZ STATUS_404 STATUS_404_no_nul
    (by rw [STATUS_404_length]; have := cfg.BUFSIZ_min; omega)
  rwa [STATUS_404_length] at h

theorem send_message_opened (cfg : Config) (sys : Sys) (fuel : Nat) (rp : List Byte)
    (conn : connection) (F : List Byte) (c0 : Nat)
    (hopen : sys.fs (cstr conn.pathname) = some F)
    (hpeer : 0 ≤ sys.peer_rc) (hsend : sys.write_cap 0 = some c0) (hc0 : 1 ≤ c0)
    (hfstat : 0 ≤ sys.fstat_rc) :
    send_message cfg sys fuel rp conn =
      match sendfile_loop sys F F.length fuel
          { sent := 0, bytes_sent := ((STATUS_200.take c0).length : Int), offset := 0,
            index := 1, wire := STATUS_200.take c0,
            calls := [Call.open_file (cstr conn.pathname) sys.new_fd,
                      Call.get_peer_address sys.peer_rc,
                      Call.send STATUS_200 ((STATUS_200.take c0).length : Int),
                      Call.fstat sys.fstat_rc] } with
      | none => none
      | some (LoopEnd.died s) =>
        some { outcome := Outcome.exited "sendfile",
               conn := { conn with send_buffer := STATUS_200 ++ List.replicate (cfg.BUFSIZ - 19) 0,
                                   send_len := 19 },
               freed := false, request_path := rp, wire := s.wire, calls := s.calls }
      | some (LoopEnd.finished s) =>
        some (send_message_done sys rp s.wire s.calls
               { conn with send_buffer := STATUS_200 ++ List.replicate (cfg.BUFSIZ - 19) 0,
                           send_len := 19 }) := by
  have hlen : strlen (STATUS_200 ++ List.replicate (cfg.BUFSIZ - 19) 0) = 19 := by
    rw [strlen_append_zeros _ _ STATUS_200_no_nul, STATUS_200_length]
  have htake : (STATUS_200 ++ List.replicate (cfg.BUFSIZ - 19) 0).take 19 = STATUS_200 := by
    rw [← STATUS_200_length, List.take_left]
  have hfd : ¬ ((sys.new_fd : Int) < 0) := not_lt.mpr (Int.ofNat_nonneg _)
  have hfd1 : ((sys.new_fd : Int) ≠ -1) := by omega
  have hpeer1 : ¬ sys.peer_rc < 0 := not_lt.mpr hpeer
  have hfstat1 : ¬ sys.fstat_rc < 0 := not_lt.mpr hfstat
  have hacc : ¬ (((STATUS_200.take c0).length : Int) = 0) := by
    rw [List.length_take, STATUS_200_length]; omega
  unfold send_message
  simp only [hopen, hfd, if_false, send_buffer_200, hlen, htake, hpeer1, hsend, hacc, hfd1,
    hfstat1, ne_eq, not_false_eq_true, if_true, Option.getD_some, List.singleton_append,
    List.cons_append, List.nil_append]

theorem send_message_file (cfg : Config) (sys : Sys) (fuel : Nat) (rp : List Byte)
    (conn : connection) (F : List Byte) (c0 : Nat)
    (hopen : sys.fs (cstr conn.pathname) = some F)
    (hpeer : 0 ≤ sys.peer_rc) (hsend : sys.write_cap 0 = some c0) (hc0 : 1 ≤ c0)
    (hfstat : 0 ≤ sys.fstat_rc)
    (hcap : ∀ i, 1 ≤ i → ∃ c, sys.write_cap i = some c ∧ 1 ≤ c)
    (hfuel : F.length ≤ fuel) :
    ∃ steps, chained F.length 0 steps ∧
      send_message cfg sys fuel rp conn =
        some (send_message_done sys rp (STATUS_200.take c0 ++ F)
          ([Call.open_file (cstr conn.pathname) sys.new_fd,
            Call.get_peer_address sys.peer_rc,
            Call.send STATUS_200 ((STATUS_200.take c0).length : Int),
            Call.fstat sys.fstat_rc] ++ steps.map (fun e => Call.sendfile e.1 F.length e.2))
          { conn with send_buffer := STATUS_200 ++ List.replicate (cfg.BUFSIZ - 19) 0,
                      send_len := 19 }) := by
  obtain ⟨s1, steps, h1, h2, h3, h4, h5⟩ := sendfile_loop_runs sys F hcap fuel
    { sent := 0, bytes_sent := ((STATUS_200.take c0).length : Int), offset := 0, index := 1,
      wire := STATUS_200.take c0,
      calls := [Call.open_file (cstr conn.pathname) sys.new_fd,
            Call.get_peer_address sys.peer_rc,
            Call.send STATUS_200 ((STATUS_200.take c0).length : Int),
            Call.fstat sys.fstat_rc] } rfl (Nat.zero_le _) (Nat.le_refl _) (by simpa using hfuel)
  refine ⟨steps, h5, ?_⟩
  rw [send_message_opened cfg sys fuel rp conn F c0 hopen hpeer hsend hc0 hfstat, h1]
  simp only [h2, h4, List.drop_zero]

/-! ## `receive_message` and `handle_client_request` -/

theorem receive_message_data (cfg : Config) (sys : Sys) (rp : List Byte) (conn : connection)
    (S d : List Byte) (k : Nat)
    (hbuf : conn.recv_buffer = S ++ List.replicate k 0) (hS : 0 ∉ S)
    (hpeer : 0 ≤ sys.peer_rc) (hrecv : sys.recv_in = some d) (hd : d ≠ [])
    (hfit : d.length ≤ k) (hB : d.length ≤ cfg.BUFSIZ) :
    receive_message cfg sys rp conn =
      { outcome := Outcome.returned STATE_DATA_RECEIVED,
        conn := { conn with recv_buffer := S ++ d ++ List.replicate (k - d.length) 0,
                            recv_len := d.length, state := STATE_DATA_RECEIVED },
        freed := false, request_path := rp, wire := [],
        calls := [Call.get_peer_address sys.peer_rc,
                  Call.recv S.length cfg.BUFSIZ (d.length : Int)] } := by
  have hpeer1 : ¬ sys.peer_rc < 0 := not_lt.mpr hpeer
  have htake : d.take cfg.BUFSIZ = d := List.take_of_length_le hB
  have hlen : ¬ d.length = 0 := fun e => hd (List.length_eq_zero.mp e)
  unfold receive_message
  simp only [hpeer1, if_false, hrecv, htake, hbuf, strlen_append_zeros S k hS,
    write_at_end S d k hfit, hlen, List.singleton_append]

theorem strcat_zeros (B : Nat) (root q : List Byte) (k : Nat) (hroot : 0 ∉ root)
    (hq : 0 ∉ q) (hlen : root.length + q.length < B) :
    strcat (root ++ List.replicate (B - root.length) 0) (q ++ List.replicate k 0) =
      some (root ++ q ++ List.replicate (B - (root.length + q.length)) 0) := by
  unfold strcat
  rw [strlen_append_zeros _ _ hroot, cstr_append_zeros _ _ hq,
    write_at_end _ _ _ (by rw [List.length_append, List.length_singleton]; omega)]
  have e : B - (root.length + q.length) = (B - root.length - (q ++ [0]).length) + 1 := by
    rw [List.length_append, List.length_singleton]; omega
  rw [e, List.replicate_succ]
  simp

theorem handle_client_request_tail (cfg : Config) (sys : Sys) (rp : List Byte)
    (conn : connection) (st : connection_state)
    (hout : (receive_message cfg sys rp conn).outcome = Outcome.returned st)
    (hst : st ≠ STATE_CONNECTION_CLOSED)
    (q p : List Byte) (kq : Nat) (hrp : rp = q ++ List.replicate kq 0)
    (hB : q.length + kq = cfg.BUFSIZ) (hq : 0 ∉ q)
    (hparse : cfg.http_parser_execute
      ((receive_message cfg sys rp conn).conn.recv_buffer.take
        (receive_message cfg sys rp conn).conn.recv_len) = [p])
    (hp : 0 ∉ p)
    (hlenp : cfg.AWS_DOCUMENT_ROOT.length + p.length < cfg.BUFSIZ)
    (hlenq : cfg.AWS_DOCUMENT_ROOT.length + q.length < cfg.BUFSIZ) :
    handle_client_request cfg sys rp conn =
      { outcome := if sys.epoll_update_inout_rc < 0
                   then Outcome.exited "w_epoll_add_ptr_inout" else Outcome.done,
        conn := { (receive_message cfg sys rp conn).conn with
                  pathname := cfg.AWS_DOCUMENT_ROOT ++ (p ++ q.drop p.length) ++
                    List.replicate (cfg.BUFSIZ -
                      (cfg.AWS_DOCUMENT_ROOT.length + (p ++ q.drop p.length).length)) 0 },
        freed := false,
        request_path := p ++ q.drop p.length ++ List.replicate (kq - (p.length - q.length)) 0,
        wire := [],
        calls := (receive_message cfg sys rp conn).calls ++
          [Call.http_parser_execute ((receive_message cfg sys rp conn).conn.recv_buffer.take
              (receive_message cfg sys rp conn).conn.recv_len),
           Call.on_path_cb p,
           Call.w_epoll_update_ptr_inout sys.epoll_update_inout_rc] } := by
  have hq2 : 0 ∉ p ++ q.drop p.length := by
    intro h
    rcases List.mem_append.mp h with h | h
    · exact hp h
    · exact hq (List.mem_of_mem_drop h)
  have hq2len : (p ++ q.drop p.length).length = p.length + (q.length - p.length) := by
    simp only [List.length_append, List.length_drop]
  have hmem : run_on_path rp [p] =
      some (p ++ q.drop p.length ++ List.replicate (kq - (p.length - q.length)) 0) := by
    simp only [run_on_path, on_path_cb, memcpy, hrp]
    rw [write_at_start q p kq (by omega)]
  have hroot := cfg.root_is_string
  have hcpy := strcpy_memset0 cfg.BUFSIZ cfg.AWS_DOCUMENT_ROOT hroot (by omega)
  have hcat := strcat_zeros cfg.BUFSIZ cfg.AWS_DOCUMENT_ROOT (p ++ q.drop p.length)
    (kq - (p.length - q.length)) hroot hq2 (by rw [hq2len]; omega)
  unfold handle_client_request
  simp only [hout, hst, if_false, hparse, hmem, hcpy, hcat, List.map_cons, List.map_nil]
  simp only [List.append_assoc, List.singleton_append, List.cons_append, List.nil_append]

/-! ## The end of `send_message` and the record of its calls -/

theorem send_message_done_wire (sys : Sys) (rp wire : List Byte) (calls : List Call)
    (conn : connection) : (send_message_done sys rp wire calls conn).wire = wire := by
  unfold send_message_done remove_connection
  split
  · rfl
  · split <;> rfl

theorem send_message_done_sendfile_calls (sys : Sys) (rp wire : List Byte) (calls : List Call)
    (conn : connection) :
    sendfile_calls (send_message_done sys rp wire calls conn).calls = sendfile_calls calls := by
  unfold send_message_done remove_connection
  split
  · simp [sendfile_calls]
  · split <;> simp [sendfile_calls]

theorem send_message_done_send_calls (sys : Sys) (rp wire : List Byte) (calls : List Call)
    (conn : connection) :
    send_calls (send_message_done sys rp wire calls conn).calls = send_calls calls := by
  unfold send_message_done remove_connection
  split
  · simp [send_calls]
  · split <;> simp [send_calls]

theorem send_message_done_closed (sys : Sys) (rp wire : List Byte) (calls : List Call)
    (conn : connection) (hin : 0 ≤ sys.epoll_update_in_rc) (hrm : 0 ≤ sys.epoll_remove_rc) :
    (send_message_done sys rp wire calls conn).outcome
        = Outcome.returned STATE_CONNECTION_CLOSED
      ∧ (send_message_done sys rp wire calls conn).freed = true := by
  unfold send_message_done remove_connection
  rw [if_neg (not_lt.mpr hin), if_neg (not_lt.mpr hrm)]
  exact ⟨rfl, rfl⟩

theorem sendfile_calls_steps (calls : List Call) (N : Nat) (steps : List (Nat × Int)) :
    sendfile_calls (calls ++ steps.map (fun e => Call.sendfile e.1 N e.2))
      = sendfile_calls calls ++ steps := by
  unfold sendfile_calls
  rw [List.filterMap_append, List.filterMap_map]
  congr 1
  induction steps with
  | nil => rfl
  | cons e rest ih => simp [List.filterMap_cons, ih]

theorem chained_sum (N : Nat) (steps : List (Nat × Int)) :
    ∀ off, chained N off steps → ((steps.map (fun e => e.2)).sum : Int) = (N : Int) - off := by
  induction steps with
  | nil =>
    intro off h
    simp only [chained] at h
    simp [h]
  | cons e rest ih =>
    intro off h
    obtain ⟨o, rc⟩ := e
    simp only [chained] at h
    obtain ⟨_, hpos, _, hrest⟩ := h
    have := ih _ hrest
    simp only [List.map_cons, List.sum_cons, this]
    have : ((rc.toNat : Nat) : Int) = rc := Int.toNat_of_nonneg (le_of_lt hpos)
    push_cast
    omega

theorem chained_done (N : Nat) (steps : List (Nat × Int)) (h : chained N N steps) :
    steps = [] := by
  cases steps with
  | nil => rfl
  | cons e rest =>
    obtain ⟨o, rc⟩ := e
    simp only [chained] at h
    obtain ⟨_, hpos, hle, _⟩ := h
    have : 0 < rc.toNat := by omega
    omega

/-- C6: for a file of `N` bytes, when the socket accepts at least 1 and at most `K`
bytes in every `sendfile` call, the transfer loop of `send_message` ends (any bound of
at least `N` iterations is enough) with `sent = N`, its `sendfile` calls move `N` bytes
in total and the socket receives the content of the file byte for byte after what it
had received before; for `N = 0` the loop body never runs (no call is added).  And in
`send_message` as a whole, once the file is open and the loop is reached (the peer
address is known, `send` has delivered something of the status line, `fstat`
succeeded), the bytes on the socket are what `send` delivered of the status line
followed by the content of the file. -/
theorem transfer_loop_delivers_whole_file (sys : Sys) (F : List Byte) (K fuel : Nat)
    (hcap : ∀ i, 1 ≤ i → ∃ c, sys.write_cap i = some c ∧ 1 ≤ c ∧ c ≤ K)
    (hfuel : F.length ≤ fuel) :
    (∀ (b : Int) (w : List Byte) (cs : List Call),
      ∃ s, sendfile_loop sys F F.length fuel
          { sent := 0, bytes_sent := b, offset := 0, index := 1, wire := w, calls := cs }
            = some (LoopEnd.finished s)
        ∧ s.sent = (F.length : Int)
        ∧ moved_total s.calls = moved_total cs + (F.length : Int)
        ∧ s.wire = w ++ F
        ∧ (F = [] → s.calls = cs))
    ∧ (∀ (cfg : Config) (rp : List Byte) (conn : connection) (c0 : Nat),
      sys.fs (cstr conn.pathname) = some F → 0 ≤ sys.peer_rc →
      sys.write_cap 0 = some c0 → 1 ≤ c0 → 0 ≤ sys.fstat_rc →
      ∃ r, send_message cfg sys fuel rp conn = some r
        ∧ moved_total r.calls = (F.length : Int)
        ∧ r.wire = STATUS_200.take c0 ++ F
        ∧ (F = [] → sendfile_calls r.calls = [])) := by
  have hcap1 : ∀ i, 1 ≤ i → ∃ c, sys.write_cap i = some c ∧ 1 ≤ c :=
    fun i hi => (hcap i hi).imp fun _ h => ⟨h.1, h.2.1⟩
  constructor
  · intro b w cs
    obtain ⟨s1, steps, h1, h2, h3, h4, h5⟩ := sendfile_loop_runs sys F hcap1 fuel
      { sent := 0, bytes_sent := b, offset := 0, index := 1, wire := w, calls := cs }
      rfl (Nat.zero_le _) (Nat.le_refl _) (by simpa using hfuel)
    refine ⟨s1, h1, h3, ?_, by simpa using h2, ?_⟩
    · unfold moved_total
      rw [h4, sendfile_calls_steps, List.map_append, List.sum_append,
        chained_sum _ _ _ h5]
      simp
    · intro hF
      subst hF
      rw [h4, chained_done 0 steps h5]
      simp
  · intro cfg rp conn c0 hopen hpeer hsend hc0 hfstat
    obtain ⟨steps, hch, hrun⟩ := send_message_file cfg sys fuel rp conn F c0 hopen hpeer
      hsend hc0 hfstat hcap1 hfuel
    have hcalls : sendfile_calls
        ([Call.open_file (cstr conn.pathname) sys.new_fd, Call.get_peer_address sys.peer_rc,
          Call.send STATUS_200 ((STATUS_200.take c0).length : Int), Call.fstat sys.fstat_rc]
          ++ steps.map (fun e => Call.sendfile e.1 F.length e.2)) = steps := by
      rw [sendfile_calls_steps]
      simp [sendfile_calls]
    refine ⟨_, hrun, ?_, send_message_done_wire _ _ _ _ _, ?_⟩
    · unfold moved_total
      rw [send_message_done_sendfile_calls, hcalls, chained_sum _ _ _ hch]
      simp
    · intro hF
      rw [send_message_done_sendfile_calls, hcalls]
      subst hF
      exact chained_done 0 steps hch

theorem asked_path : cstr asked.pathname = bytes ".//a.txt" :=
  cstr_append_zeros _ _ (by decide)

theorem serving_open (F : List Byte) (k0 k : Nat) :
    (serving F k0 k).fs (cstr asked.pathname) = some F := by
  rw [asked_path]
  simp [serving]

theorem sendfile_loop_dies (sys : Sys) (F : List Byte) (K j : Nat)
    (hj : sys.write_cap j = none)
    (hcap : ∀ i, 1 ≤ i → i < j → ∃ c, sys.write_cap i = some c ∧ c ≤ K) :
    ∀ (n fuel : Nat) (s : Transfer), s.index + n = j → 1 ≤ s.index →
      s.sent = (s.offset : Int) → s.offset + n * K < F.length → n < fuel →
      ∃ s1, sendfile_loop sys F F.length fuel s = some (LoopEnd.died s1) := by
  intro n
  induction n with
  | zero =>
    intro fuel s hidx _ hs hoff hfuel
    have hlt : s.sent < (F.length : Int) := by rw [hs]; exact_mod_cast (by omega : s.offset < F.length)
    obtain ⟨f, rfl⟩ : ∃ f, fuel = f + 1 := ⟨fuel - 1, by omega⟩
    have hidx1 : s.index = j := by omega
    rw [sendfile_loop, if_pos hlt]
    simp only [hidx1, hj]
    exact ⟨_, rfl⟩
  | succ n ih =>
    intro fuel s hidx hidx1 hs hoff hfuel
    have hmul : (n + 1) * K = n * K + K := Nat.succ_mul n K
    have hlt : s.sent < (F.length : Int) := by rw [hs]; exact_mod_cast (by omega : s.offset < F.length)
    obtain ⟨f, rfl⟩ : ∃ f, fuel = f + 1 := ⟨fuel - 1, by omega⟩
    obtain ⟨c, hc, hcK⟩ := hcap s.index hidx1 (by omega)
    obtain ⟨moved, hm⟩ :
        ∃ m, m = ((F.drop s.offset).take (min F.length MAX_RW_COUNT)).take c := ⟨_, rfl⟩
    have hlen : moved.length = min c (min (min F.length MAX_RW_COUNT) (F.length - s.offset)) := by
      rw [hm]; simp
    have hmax : moved.length ≤ MAX_RW_COUNT := by rw [hlen]; omega
    have hK : moved.length ≤ K := by rw [hlen]; omega
    have hoff2 : s.offset + moved.length + n * K < F.length := by omega
    have hrc : to_int moved.length = (moved.length : Int) := to_int_small _ hmax
    have hrc0 : ¬ to_int moved.length < 0 := by rw [hrc]; exact not_lt.mpr (Int.ofNat_nonneg _)
    obtain ⟨s1, h1⟩ := ih f
      { s with offset := s.offset + moved.length, index := s.index + 1,
               wire := s.wire ++ moved,
               calls := s.calls ++ [Call.sendfile s.offset F.length (to_int moved.length)],
               sent := s.sent + to_int moved.length,
               bytes_sent := s.bytes_sent + to_int moved.length }
      (by show s.index + 1 + n = j; clear hrc hrc0; omega) (Nat.le_add_left 1 _)
      (by simp [hrc, hs]) hoff2 (by clear hrc hrc0; omega)
    refine ⟨s1, ?_⟩
    rw [sendfile_loop, if_pos hlt]
    simp only [hc]
    rw [← hm, if_neg hrc0]
    exact h1

theorem remove_connection_fields (sys : Sys) (rp wire : List Byte) (calls : List Call)
    (conn : connection) :
    (remove_connection sys rp wire calls conn).conn.send_buffer = conn.send_buffer
      ∧ (remove_connection sys rp wire calls conn).conn.send_len = conn.send_len
      ∧ (remove_connection sys rp wire calls conn).wire = wire
      ∧ sendfile_calls (remove_connection sys rp wire calls conn).calls = sendfile_calls calls
      ∧ send_calls (remove_connection sys rp wire calls conn).calls = send_calls calls := by
  unfold remove_connection
  split <;> simp [sendfile_calls, send_calls]

theorem remove_connection_closed (sys : Sys) (rp wire : List Byte) (calls : List Call)
    (conn : connection) (hrm : 0 ≤ sys.epoll_remove_rc) :
    (remove_connection sys rp wire calls conn).outcome
        = Outcome.returned STATE_CONNECTION_CLOSED
      ∧ (remove_connection sys rp wire calls conn).freed = true := by
  unfold remove_connection
  rw [if_neg (not_lt.mpr hrm)]
  exact ⟨rfl, rfl⟩

theorem send_message_done_fields (sys : Sys) (rp wire : List Byte) (calls : List Call)
    (conn : connection) :
    (send_message_done sys rp wire calls conn).conn.send_buffer = conn.send_buffer
      ∧ (send_message_done sys rp wire calls conn).conn.send_len = conn.send_len := by
  unfold send_message_done
  split
  · exact ⟨rfl, rfl⟩
  · exact ⟨(remove_connection_fields _ _ _ _ _).1, (remove_connection_fields _ _ _ _ _).2.1⟩

/-- The part of `send_message` that follows the status line when `open` has failed. -/
theorem send_message_missing (cfg : Config) (sys : Sys) (fuel : Nat) (rp : List Byte)
    (conn : connection) (hopen : sys.fs (cstr conn.pathname) = none) :
    send_message cfg sys fuel rp conn =
      some (
        if sys.peer_rc < 0 then
          remove_connection sys rp []
            [Call.open_file (cstr conn.pathname) (-1), Call.get_peer_address sys.peer_rc]
            { conn with send_buffer := STATUS_404 ++ List.replicate (cfg.BUFSIZ - 26) 0,
                        send_len := 26 }
        else match sys.write_cap 0 with
          | none =>
            remove_connection sys rp []
              [Call.open_file (cstr conn.pathname) (-1), Call.get_peer_address sys.peer_rc,
               Call.send STATUS_404 (-1)]
              { conn with send_buffer := STATUS_404 ++ List.replicate (cfg.BUFSIZ - 26) 0,
                          send_len := 26 }
          | some c =>
            if ((STATUS_404.take c).length : Int) = 0 then
              remove_connection sys rp (STATUS_404.take c)
                [Call.open_file (cstr conn.pathname) (-1), Call.get_peer_address sys.peer_rc,
                 Call.send STATUS_404 ((STATUS_404.take c).length : Int)]
                { conn with send_buffer := STATUS_404 ++ List.replicate (cfg.BUFSIZ - 26) 0,
                            send_len := 26 }
            else
              send_message_done sys rp (STATUS_404.take c)
                [Call.open_file (cstr conn.pathname) (-1), Call.get_peer_address sys.peer_rc,
                 Call.send STATUS_404 ((STATUS_404.take c).length : Int)]
                { conn with send_buffer := STATUS_404 ++ List.replicate (cfg.BUFSIZ - 26) 0,
                            send_len := 26 }) := by
  have hlen : strlen (STATUS_404 ++ List.replicate (cfg.BUFSIZ - 26) 0) = 26 := by
    rw [strlen_append_zeros _ _ STATUS_404_no_nul, STATUS_404_length]
  have htake : (STATUS_404 ++ List.replicate (cfg.BUFSIZ - 26) 0).take 26 = STATUS_404 := by
    rw [← STATUS_404_length, List.take_left]
  have hfd : ((-1 : Int) < 0) := by decide
  unfold send_message
  simp only [hopen, hfd, if_true, send_buffer_404, hlen, htake, ne_eq, not_true_eq_false,
    if_false, List.singleton_append, List.cons_append, List.nil_append]
  by_cases hp : sys.peer_rc < 0
  · simp only [hp, if_true]
  · simp only [hp, if_false]
    cases hw : sys.write_cap 0 with
    | none => rfl
    | some c =>
      simp only
      by_cases h0 : ((STATUS_404.take c).length : Int) = 0
      · simp only [h0, if_true]
      · simp only [h0, if_false]

/-- C2 (as amended): when the pathname cannot be opened, `send_message` fills the send
buffer with exactly `"HTTP/1.0 404 Not Found\r\n\r\n"` (the rest of the array being
NUL), sets `send_len` to the length of that string and never calls `sendfile`; when
`get_peer_address` succeeds it offers exactly those bytes to one `send` call, and when
that `send` accepts the whole buffer the bytes on the socket are exactly that status
line, with no body; when `get_peer_address` fails it makes no `send` call. -/
theorem not_found_status_line (cfg : Config) (sys : Sys) (fuel : Nat) (rp : List Byte)
    (conn : connection) (hopen : sys.fs (cstr conn.pathname) = none) :
    ∃ r, send_message cfg sys fuel rp conn = some r
      ∧ r.conn.send_buffer = STATUS_404 ++ List.replicate (cfg.BUFSIZ - STATUS_404.length) 0
      ∧ cstr r.conn.send_buffer = STATUS_404
      ∧ r.conn.send_len = STATUS_404.length
      ∧ sendfile_calls r.calls = []
      ∧ (0 ≤ sys.peer_rc → ∃ rc, send_calls r.calls = [(STATUS_404, rc)])
      ∧ (0 ≤ sys.peer_rc → ∀ c, sys.write_cap 0 = some c → STATUS_404.length ≤ c →
          r.wire = STATUS_404)
      ∧ (sys.peer_rc < 0 → send_calls r.calls = []) := by
  refine ⟨_, send_message_missing cfg sys fuel rp conn hopen, ?_⟩
  rw [STATUS_404_length]
  by_cases hp : sys.peer_rc < 0
  · simp only [hp, if_true]
    obtain ⟨h1, h2, _, h4, h5⟩ := remove_connection_fields sys rp []
      [Call.open_file (cstr conn.pathname) (-1), Call.get_peer_address sys.peer_rc]
      { conn with send_buffer := STATUS_404 ++ List.replicate (cfg.BUFSIZ - 26) 0,
                  send_len := 26 }
    refine ⟨h1, ?_, h2, ?_, fun h => absurd hp (not_lt.mpr h),
      fun h => absurd hp (not_lt.mpr h), fun _ => ?_⟩
    · rw [h1]; exact cstr_append_zeros _ _ STATUS_404_no_nul
    · rw [h4]; simp [sendfile_calls]
    · rw [h5]; simp [send_calls]
  · simp only [hp, if_false]
    cases hw : sys.write_cap 0 with
    | none =>
      simp only
      obtain ⟨h1, h2, _, h4, h5⟩ := remove_connection_fields sys rp []
        [Call.open_file (cstr conn.pathname) (-1), Call.get_peer_address sys.peer_rc,
         Call.send STATUS_404 (-1)]
        { conn with send_buffer := STATUS_404 ++ List.replicate (cfg.BUFSIZ - 26) 0,
                    send_len := 26 }
      refine ⟨h1, ?_, h2, ?_, fun _ => ⟨-1, ?_⟩, fun _ c hc => ?_, fun h => h.elim⟩
      · rw [h1]; exact cstr_append_zeros _ _ STATUS_404_no_nul
      · rw [h4]; simp [sendfile_calls]
      · rw [h5]; simp [send_calls]
      · exact absurd hc (by simp)
    | some c =>
      simp only
      by_cases h0 : ((STATUS_404.take c).length : Int) = 0
      · simp only [h0, if_true]
        obtain ⟨h1, h2, _, h4, h5⟩ := remove_connection_fields sys rp (STATUS_404.take c)
          [Call.open_file (cstr conn.pathname) (-1), Call.get_peer_address sys.peer_rc,
           Call.send STATUS_404 0]
          { conn with send_buffer := STATUS_404 ++ List.replicate (cfg.BUFSIZ - 26) 0,
                      send_len := 26 }
        refine ⟨h1, ?_, h2, ?_, fun _ => ⟨0, ?_⟩, fun _ c1 hc hle => ?_,
          fun h => h.elim⟩
        · rw [h1]; exact cstr_append_zeros _ _ STATUS_404_no_nul
        · rw [h4]; simp [sendfile_calls]
        · rw [h5]; simp [send_calls]
        · have hcc : c1 = c := by simpa using hc.symm
          subst hcc
          rw [List.length_take, STATUS_404_length] at h0
          omega
      · simp only [h0, if_false]
        obtain ⟨h1, h2⟩ := send_message_done_fields sys rp (STATUS_404.take c)
          [Call.open_file (cstr conn.pathname) (-1), Call.get_peer_address sys.peer_rc,
           Call.send STATUS_404 ((STATUS_404.take c).length : Int)]
          { conn with send_buffer := STATUS_404 ++ List.replicate (cfg.BUFSIZ - 26) 0,
                      send_len := 26 }
        refine ⟨h1, ?_, h2, ?_, fun _ => ⟨((STATUS_404.take c).length : Int), ?_⟩,
          fun _ c1 hc hle => ?_, fun h => h.elim⟩
        · rw [h1]; exact cstr_append_zeros _ _ STATUS_404_no_nul
        · rw [send_message_done_sendfile_calls]; simp [sendfile_calls]
        · rw [send_message_done_send_calls]; simp [send_calls]
        · have hcc : c1 = c := by simpa using hc.symm
          subst hcc
          rw [send_message_done_wire]
          exact List.take_of_length_le (by rw [STATUS_404_length]; exact hle)

/-- C2, witness: no file exists and every call succeeds; the one `send` call is offered
the status line and the socket receives exactly the status line. -/
theorem not_found_status_line_witness :
    quiet.fs (cstr asked.pathname) = none ∧
    ∃ r, send_message linux quiet 0 (memset0 8192) asked = some r
      ∧ cstr r.conn.send_buffer = STATUS_404
      ∧ r.conn.send_len = STATUS_404.length
      ∧ sendfile_calls r.calls = []
      ∧ (∃ rc, send_calls r.calls = [(STATUS_404, rc)])
      ∧ r.wire = STATUS_404 := by
  obtain ⟨r, h1, _, h3, h4, h5, h6, h7, _⟩ :=
    not_found_status_line linux quiet 0 (memset0 8192) asked rfl
  exact ⟨rfl, r, h1, h3, h4, h5, h6 (by decide), h7 (by decide) 8192 rfl (by decide)⟩

/-- C2, counterexample to the claim as stated: no file can be opened at the pathname
and `get_peer_address` fails; `send_message` then makes no `send` call at all, so the
status line is offered to no `send` call. -/
theorem not_found_without_send :
    no_peer.fs (cstr asked.pathname) = none ∧
    ∃ r, send_message linux no_peer 0 (memset0 8192) asked = some r
      ∧ send_calls r.calls = [] := by
  refine ⟨rfl, _, send_message_missing linux no_peer 0 (memset0 8192) asked rfl, ?_⟩
  have hp : no_peer.peer_rc < 0 := by decide
  simp only [hp, if_true]
  rw [(remove_connection_fields _ _ _ _ _).2.2.2.2]
  simp [send_calls]

/-- C8 (as amended): on an opened file, with a socket that accepts at least one byte
in every call and `fstat` and the epoll calls succeeding, one invocation of
`send_message` makes its `sendfile` calls one after the other until the whole file has
been moved (each call starts at the file offset the previous one reached, so after a
call that moved `k` bytes, fewer than remained, the next call is made at once at the
offset advanced by `k`), then removes the connection and returns
`STATE_CONNECTION_CLOSED`. -/
theorem send_message_transfers_in_one_invocation (cfg : Config) (sys : Sys) (fuel : Nat)
    (rp : List Byte) (conn : connection) (F : List Byte) (c0 : Nat)
    (hopen : sys.fs (cstr conn.pathname) = some F)
    (hpeer : 0 ≤ sys.peer_rc) (hsend : sys.write_cap 0 = some c0) (hc0 : 1 ≤ c0)
    (hfstat : 0 ≤ sys.fstat_rc)
    (hcap : ∀ i, 1 ≤ i → ∃ c, sys.write_cap i = some c ∧ 1 ≤ c)
    (hin : 0 ≤ sys.epoll_update_in_rc) (hrm : 0 ≤ sys.epoll_remove_rc)
    (hfuel : F.length ≤ fuel) :
    ∃ r, send_message cfg sys fuel rp conn = some r
      ∧ r.outcome = Outcome.returned STATE_CONNECTION_CLOSED
      ∧ r.freed = true
      ∧ chained F.length 0 (sendfile_calls r.calls) := by
  obtain ⟨steps, hch, hrun⟩ := send_message_file cfg sys fuel rp conn F c0 hopen hpeer hsend
    hc0 hfstat hcap hfuel
  have hcalls : sendfile_calls
      ([Call.open_file (cstr conn.pathname) sys.new_fd, Call.get_peer_address sys.peer_rc,
        Call.send STATUS_200 ((STATUS_200.take c0).length : Int), Call.fstat sys.fstat_rc]
        ++ steps.map (fun e => Call.sendfile e.1 F.length e.2)) = steps := by
    rw [sendfile_calls_steps]
    simp [sendfile_calls]
  refine ⟨_, hrun, (send_message_done_closed _ _ _ _ _ hin hrm).1,
    (send_message_done_closed _ _ _ _ _ hin hrm).2, ?_⟩
  rw [send_message_done_sendfile_calls, hcalls]
  exact hch

theorem serving_caps (F : List Byte) (k0 k : Nat) (hk : 1 ≤ k) :
    ∀ i, 1 ≤ i → ∃ c, (serving F k0 k).write_cap i = some c ∧ 1 ≤ c := by
  intro i hi
  refine ⟨k, ?_, hk⟩
  have : i ≠ 0 := by omega
  simp [serving, this]

/-- C8, witness: a file of two bytes and a socket that accepts one byte per `sendfile`
call. -/
theorem send_message_transfers_in_one_invocation_witness :
    (serving (bytes "ab") 8192 1).fs (cstr asked.pathname) = some (bytes "ab") ∧
    ∃ r, send_message linux (serving (bytes "ab") 8192 1) 2 (memset0 8192) asked = some r
      ∧ r.outcome = Outcome.returned STATE_CONNECTION_CLOSED
      ∧ r.freed = true
      ∧ chained (bytes "ab").length 0 (sendfile_calls r.calls) :=
  ⟨serving_open _ _ _,
   send_message_transfers_in_one_invocation linux (serving (bytes "ab") 8192 1) 2
     (memset0 8192) asked (bytes "ab") 8192 (serving_open _ _ _) (by decide) rfl (by decide)
     (by decide) (serving_caps _ _ _ (by decide)) (by decide) (by decide) (by decide)⟩

/-- C1, the code at the failing input: the file at the pathname holds `abc` and the
socket accepts at most 7 bytes per write call.  `send_message` offers the status line
to `send` once; the socket receives its first 7 bytes, `HTTP/1.`, then the file, and
the connection is removed: the rest of the status line is never sent. -/
theorem short_send_loses_status_line :
    (serving (bytes "abc") 7 7).fs (cstr asked.pathname) = some (bytes "abc") ∧
    ∃ r, send_message linux (serving (bytes "abc") 7 7) 3 (memset0 8192) asked = some r
      ∧ r.freed = true
      ∧ r.wire = bytes "HTTP/1." ++ bytes "abc"
      ∧ r.wire ≠ STATUS_200 ++ bytes "abc" := by
  obtain ⟨steps, _, hrun⟩ := send_message_file linux (serving (bytes "abc") 7 7) 3
    (memset0 8192) asked (bytes "abc") 7 (serving_open _ _ _) (by decide) rfl (by decide)
    (by decide) (serving_caps _ _ _ (by decide)) (by decide)
  refine ⟨serving_open _ _ _, _, hrun,
    (send_message_done_closed _ _ _ _ _ (by decide) (by decide)).2, ?_, ?_⟩
  · rw [send_message_done_wire]; decide
  · rw [send_message_done_wire]; decide

theorem broken_pipe_open (F : List Byte) :
    (broken_pipe F).fs (cstr asked.pathname) = some F := by
  rw [asked_path]
  simp [broken_pipe]

/-- C9 (as amended): with `get_peer_address` succeeding, (1) when `send` returns an
error or zero and `w_epoll_remove_ptr` succeeds, `send_message` removes the connection
and returns `STATE_CONNECTION_CLOSED`; (2) when `fstat` returns an error it terminates
the server process through `DIE("fstat")`, the connection not removed; (3) when a
`sendfile` call returns an error (the `j`-th write call on the socket, the earlier
ones accepting at most `K` bytes each of a file longer than `(j - 1) * K` bytes) it
terminates the server process through `DIE("sendfile")`. -/
theorem send_message_error_outcomes (cfg : Config) (sys : Sys) (fuel : Nat)
    (rp : List Byte) (conn : connection) (hpeer : 0 ≤ sys.peer_rc) :
    ((sys.write_cap 0 = none ∨ sys.write_cap 0 = some 0) → 0 ≤ sys.epoll_remove_rc →
      ∃ r, send_message cfg sys fuel rp conn = some r
        ∧ r.outcome = Outcome.returned STATE_CONNECTION_CLOSED ∧ r.freed = true)
    ∧ (∀ F c0, sys.fs (cstr conn.pathname) = some F → sys.write_cap 0 = some c0 → 1 ≤ c0 →
      sys.fstat_rc < 0 →
      ∃ r, send_message cfg sys fuel rp conn = some r
        ∧ r.outcome = Outcome.exited "fstat" ∧ r.freed = false)
    ∧ (∀ F c0 j K, sys.fs (cstr conn.pathname) = some F → sys.write_cap 0 = some c0 →
      1 ≤ c0 → 0 ≤ sys.fstat_rc → 1 ≤ j → sys.write_cap j = none →
      (∀ i, 1 ≤ i → i < j → ∃ c, sys.write_cap i = some c ∧ c ≤ K) →
      (j - 1) * K < F.length → j ≤ fuel →
      ∃ r, send_message cfg sys fuel rp conn = some r
        ∧ r.outcome = Outcome.exited "sendfile" ∧ r.freed = false) := by
  have hpeer1 : ¬ sys.peer_rc < 0 := not_lt.mpr hpeer
  refine ⟨?_, ?_, ?_⟩
  · intro hw hrm
    cases hopen : sys.fs (cstr conn.pathname) with
    | none =>
      rw [send_message_missing cfg sys fuel rp conn hopen]
      simp only [hpeer1, if_false]
      rcases hw with hw | hw
      · simp only [hw]
        exact ⟨_, rfl, remove_connection_closed _ _ _ _ _ hrm⟩
      · simp only [hw, List.take_zero, List.length_nil, Nat.cast_zero, if_true]
        exact ⟨_, rfl, remove_connection_closed _ _ _ _ _ hrm⟩
    | some F =>
      have hfd : ¬ ((sys.new_fd : Int) < 0) := not_lt.mpr (Int.ofNat_nonneg _)
      unfold send_message
      simp only [hopen, hfd, if_false, send_buffer_200, hpeer1]
      rcases hw with hw | hw
      · simp only [hw]
        exact ⟨_, rfl, remove_connection_closed _ _ _ _ _ hrm⟩
      · simp only [hw, List.take_zero, List.length_nil, Nat.cast_zero, if_true]
        exact ⟨_, rfl, remove_connection_closed _ _ _ _ _ hrm⟩
  · intro F c0 hopen hsend hc0 hfstat
    have hlen : strlen (STATUS_200 ++ List.replicate (cfg.BUFSIZ - 19) 0) = 19 := by
      rw [strlen_append_zeros _ _ STATUS_200_no_nul, STATUS_200_length]
    have htake : (STATUS_200 ++ List.replicate (cfg.BUFSIZ - 19) 0).take 19 = STATUS_200 := by
      rw [← STATUS_200_length, List.take_left]
    have hfd : ¬ ((sys.new_fd : Int) < 0) := not_lt.mpr (Int.ofNat_nonneg _)
    have hfd1 : ((sys.new_fd : Int) ≠ -1) := by omega
    have hacc : ¬ (((STATUS_200.take c0).length : Int) = 0) := by
      rw [List.length_take, STATUS_200_length]; omega
    unfold send_message
    simp only [hopen, hfd, if_false, send_buffer_200, hlen, htake, hpeer1, hsend, hacc, hfd1,
      hfstat, ne_eq, not_false_eq_true, if_true]
    exact ⟨_, rfl, rfl, rfl⟩
  · intro F c0 j K hopen hsend hc0 hfstat hj hfail hcap hlong hfuel
    obtain ⟨s1, h1⟩ := sendfile_loop_dies sys F K j hfail hcap (j - 1) fuel
      { sent := 0, bytes_sent := ((STATUS_200.take c0).length : Int), offset := 0, index := 1,
        wire := STATUS_200.take c0,
        calls := [Call.open_file (cstr conn.pathname) sys.new_fd,
                  Call.get_peer_address sys.peer_rc,
                  Call.send STATUS_200 ((STATUS_200.take c0).length : Int),
                  Call.fstat sys.fstat_rc] }
      (by show 1 + (j - 1) = j; omega) (Nat.le_refl _) rfl
      (by show 0 + (j - 1) * K < F.length; omega) (by omega)
    rw [send_message_opened cfg sys fuel rp conn F c0 hopen hpeer hsend hc0 hfstat, h1]
    exact ⟨_, rfl, rfl, rfl⟩

/-! ## The pathname computed by `handle_client_request` -/

theorem receive_message_on_path_calls (cfg : Config) (sys : Sys) (rp : List Byte)
    (conn : connection) : on_path_calls (receive_message cfg sys rp conn).calls = [] := by
  unfold receive_message remove_connection
  simp only
  split
  · split <;> simp [on_path_calls]
  · split
    · split <;> simp [on_path_calls]
    · split
      · simp [on_path_calls]
      · split
        · split <;> simp [on_path_calls]
        · simp [on_path_calls]

theorem handle_client_request_stops (cfg : Config) (sys : Sys) (rp : List Byte)
    (conn : connection)
    (h : ∀ st, (receive_message cfg sys rp conn).outcome = Outcome.returned st →
      st = STATE_CONNECTION_CLOSED) :
    handle_client_request cfg sys rp conn = receive_message cfg sys rp conn := by
  unfold handle_client_request
  simp only
  split
  · rename_i st hst
    rw [if_pos (h st hst)]
  · rfl

theorem handle_client_request_on_path_calls (cfg : Config) (sys : Sys) (rp : List Byte)
    (conn : connection) (st : connection_state)
    (hout : (receive_message cfg sys rp conn).outcome = Outcome.returned st)
    (hst : st ≠ STATE_CONNECTION_CLOSED) :
    on_path_calls (handle_client_request cfg sys rp conn).calls =
        cfg.http_parser_execute ((receive_message cfg sys rp conn).conn.recv_buffer.take
          (receive_message cfg sys rp conn).conn.recv_len)
      ∧ parser_ranges (handle_client_request cfg sys rp conn).calls =
        parser_ranges (receive_message cfg sys rp conn).calls ++
          [(receive_message cfg sys rp conn).conn.recv_buffer.take
            (receive_message cfg sys rp conn).conn.recv_len] := by
  have hmap : ∀ l : List (List Byte),
      List.filterMap (fun c => match c with
        | Call.on_path_cb buf => some buf
        | _ => none) (l.map Call.on_path_cb) = l := by
    intro l
    induction l with
    | nil => rfl
    | cons a l ih => simp [List.filterMap_cons, ih]
  have hmap2 : ∀ l : List (List Byte),
      List.filterMap (fun c => match c with
        | Call.http_parser_execute data => some data
        | _ => none) (l.map Call.on_path_cb) = [] := by
    intro l
    induction l with
    | nil => rfl
    | cons a l ih => simp [List.filterMap_cons, ih]
  have h0 := receive_message_on_path_calls cfg sys rp conn
  unfold on_path_calls at h0
  unfold handle_client_request
  simp only [hout, hst, if_false]
  split
  · simp [on_path_calls, parser_ranges, List.filterMap_append, h0, hmap, hmap2]
  · split
    · simp [on_path_calls, parser_ranges, List.filterMap_append, h0, hmap, hmap2]
    · split
      · simp [on_path_calls, parser_ranges, List.filterMap_append, h0, hmap, hmap2]
      · simp [on_path_calls, parser_ranges, List.filterMap_append, h0, hmap, hmap2]

/-- C3: on a freshly started server (`request_path` all NUL), when the parser reports
the path `p` once through `on_path_cb` while `handle_client_request` runs, `p` holds
no NUL byte and `length(AWS_DOCUMENT_ROOT) + length(p) < BUFSIZ`, the call leaves in
`conn->pathname` the bytes of `AWS_DOCUMENT_ROOT` followed by `p`, NUL up to the end
of the array; as a C string the pathname is `AWS_DOCUMENT_ROOT` followed by `p`. -/
theorem pathname_is_root_then_path (cfg : Config) (sys : Sys) (conn : connection)
    (p : List Byte)
    (hcb : on_path_calls (handle_client_request cfg sys (memset0 cfg.BUFSIZ) conn).calls = [p])
    (hp : 0 ∉ p) (hlen : cfg.AWS_DOCUMENT_ROOT.length + p.length < cfg.BUFSIZ) :
    (handle_client_request cfg sys (memset0 cfg.BUFSIZ) conn).conn.pathname =
        cfg.AWS_DOCUMENT_ROOT ++ p ++
          List.replicate (cfg.BUFSIZ - (cfg.AWS_DOCUMENT_ROOT.length + p.length)) 0
      ∧ cstr (handle_client_request cfg sys (memset0 cfg.BUFSIZ) conn).conn.pathname =
        cfg.AWS_DOCUMENT_ROOT ++ p := by
  by_cases hgo : ∀ st, (receive_message cfg sys (memset0 cfg.BUFSIZ) conn).outcome
      = Outcome.returned st → st = STATE_CONNECTION_CLOSED
  · rw [handle_client_request_stops cfg sys _ conn hgo,
      receive_message_on_path_calls] at hcb
    exact absurd hcb (by simp)
  · push_neg at hgo
    obtain ⟨st, hout, hst⟩ := hgo
    rw [(handle_client_request_on_path_calls cfg sys _ conn st hout hst).1] at hcb
    have hnoq : (0 : Byte) ∉ ([] : List Byte) := by simp
    have hmem : 0 ∉ cfg.AWS_DOCUMENT_ROOT ++ p := by
      intro h
      rcases List.mem_append.mp h with h | h
      · exact cfg.root_is_string h
      · exact hp h
    have h := handle_client_request_tail cfg sys (memset0 cfg.BUFSIZ) conn st hout hst [] p
      cfg.BUFSIZ (by simp [memset0]) (by simp) hnoq hcb hp hlen
      (by simp only [List.length_nil]; omega)
    rw [h]
    simp only [List.drop_nil, List.append_nil]
    exact ⟨trivial, cstr_append_zeros _ _ hmem⟩

theorem handle_client_request_first_read (cfg : Config) (sys : Sys) (rp : List Byte)
    (conn : connection) (d q p : List Byte) (kq : Nat)
    (hbuf : conn.recv_buffer = memset0 cfg.BUFSIZ)
    (hpeer : 0 ≤ sys.peer_rc) (hrecv : sys.recv_in = some d) (hd : d ≠ [])
    (hB : d.length ≤ cfg.BUFSIZ)
    (hrp : rp = q ++ List.replicate kq 0) (hq : q.length + kq = cfg.BUFSIZ) (hq0 : 0 ∉ q)
    (hparse : cfg.http_parser_execute d = [p]) (hp : 0 ∉ p)
    (hlenp : cfg.AWS_DOCUMENT_ROOT.length + p.length < cfg.BUFSIZ)
    (hlenq : cfg.AWS_DOCUMENT_ROOT.length + q.length < cfg.BUFSIZ) :
    handle_client_request cfg sys rp conn =
      { outcome := if sys.epoll_update_inout_rc < 0
                   then Outcome.exited "w_epoll_add_ptr_inout" else Outcome.done,
        conn := { conn with
                  recv_buffer := d ++ List.replicate (cfg.BUFSIZ - d.length) 0,
                  recv_len := d.length, state := STATE_DATA_RECEIVED,
                  pathname := cfg.AWS_DOCUMENT_ROOT ++ (p ++ q.drop p.length) ++
                    List.replicate (cfg.BUFSIZ -
                      (cfg.AWS_DOCUMENT_ROOT.length + (p ++ q.drop p.length).length)) 0 },
        freed := false,
        request_path := p ++ q.drop p.length ++ List.replicate (kq - (p.length - q.length)) 0,
        wire := [],
        calls := [Call.get_peer_address sys.peer_rc,
                  Call.recv 0 cfg.BUFSIZ (d.length : Int),
                  Call.http_parser_execute d, Call.on_path_cb p,
                  Call.w_epoll_update_ptr_inout sys.epoll_update_inout_rc] } := by
  have hr := receive_message_data cfg sys rp conn [] d cfg.BUFSIZ
    (by rw [hbuf]; simp [memset0]) (by simp) hpeer hrecv hd hB hB
  simp only [List.nil_append, List.length_nil] at hr
  have htake : (d ++ List.replicate (cfg.BUFSIZ - d.length) 0).take d.length = d :=
    List.take_left _ _
  have h := handle_client_request_tail cfg sys rp conn STATE_DATA_RECEIVED
    (by rw [hr]) (by decide) q p kq hrp hq hq0 (by rw [hr]; simp only; rw [htake]; exact hparse)
    hp hlenp hlenq
  rw [h, hr]
  simp only [htake, List.cons_append, List.nil_append]

/-- C3, witness: the first request the server receives asks for `/b`. -/
theorem pathname_is_root_then_path_witness :
    on_path_calls (handle_client_request linux (incoming get_b) (memset0 linux.BUFSIZ)
        (fresh 4)).calls = [bytes "/b"]
    ∧ (handle_client_request linux (incoming get_b) (memset0 linux.BUFSIZ)
        (fresh 4)).conn.pathname =
        linux.AWS_DOCUMENT_ROOT ++ bytes "/b" ++
          List.replicate (linux.BUFSIZ - (linux.AWS_DOCUMENT_ROOT.length + (bytes "/b").length)) 0
    ∧ cstr (handle_client_request linux (incoming get_b) (memset0 linux.BUFSIZ)
        (fresh 4)).conn.pathname = linux.AWS_DOCUMENT_ROOT ++ bytes "/b" := by
  have hcb : on_path_calls (handle_client_request linux (incoming get_b)
      (memset0 linux.BUFSIZ) (fresh 4)).calls = [bytes "/b"] := by
    rw [handle_client_request_first_read linux (incoming get_b) (memset0 linux.BUFSIZ)
      (fresh 4) get_b [] (bytes "/b") linux.BUFSIZ rfl (by decide) rfl (by decide)
      (by decide) (by simp [memset0]) (by simp) (by simp) (by decide) (by decide)
      (by decide) (by decide)]
    simp [on_path_calls]
  exact ⟨hcb, pathname_is_root_then_path linux (incoming get_b) (fresh 4) (bytes "/b") hcb
    (by decide) (by decide)⟩

/-- C4, the code at the failing input: connection A asks for `/long.txt`, then
connection B asks for `/b`.  The pathname computed for B is `.//bong.txt`, which keeps
the tail of the path of A; on a freshly started server the same request of B gives
`.//b`. -/
theorem pathname_keeps_tail_of_earlier_request :
    cstr (handle_client_request linux (incoming get_b)
        (handle_client_request linux (incoming get_long) (memset0 linux.BUFSIZ)
          (fresh 4)).request_path
        (fresh 5)).conn.pathname = bytes ".//bong.txt"
    ∧ cstr (handle_client_request linux (incoming get_b) (memset0 linux.BUFSIZ)
        (fresh 5)).conn.pathname = bytes ".//b" := by
  have hA := handle_client_request_first_read linux (incoming get_long)
    (memset0 linux.BUFSIZ) (fresh 4) get_long [] (bytes "/long.txt") linux.BUFSIZ rfl
    (by decide) rfl (by decide) (by decide) (by simp [memset0]) (by simp) (by simp)
    (by decide) (by decide) (by decide) (by decide)
  have hrp : (handle_client_request linux (incoming get_long) (memset0 linux.BUFSIZ)
      (fresh 4)).request_path = bytes "/long.txt" ++ List.replicate 8183 0 := by
    rw [hA]
    have hl : (bytes "/long.txt").length = 9 := by decide
    simp only [List.drop_nil, List.append_nil, hl, List.length_nil]
    rfl
  have hB := handle_client_request_first_read linux (incoming get_b)
    (bytes "/long.txt" ++ List.replicate 8183 0) (fresh 5) get_b (bytes "/long.txt")
    (bytes "/b") 8183 rfl (by decide) rfl (by decide) (by decide) rfl (by decide)
    (by decide) (by decide) (by decide) (by decide) (by decide)
  have hB0 := handle_client_request_first_read linux (incoming get_b)
    (memset0 linux.BUFSIZ) (fresh 5) get_b [] (bytes "/b") linux.BUFSIZ rfl
    (by decide) rfl (by decide) (by decide) (by simp [memset0]) (by simp) (by simp)
    (by decide) (by decide) (by decide) (by decide)
  rw [hrp, hB, hB0]
  simp only
  rw [cstr_append_zeros _ _ (by decide), cstr_append_zeros _ _ (by decide)]
  exact ⟨by decide, by decide⟩

/-- C5, the code at the failing input: the request line
`GET /index.html HTTP/1.0` reaches one connection in two chunks, `GET /index.html HT`
and `TP/1.0\r\n\r\n`.  After the second read the range handed to the parser is
`GET /index`, the first 10 bytes of the buffer (10 being the length of the second
chunk), not the 28 bytes received so far. -/
theorem parser_gets_prefix_of_last_chunk_length :
    parser_ranges (handle_client_request linux (incoming second_chunk)
        (handle_client_request linux (incoming first_chunk) (memset0 linux.BUFSIZ)
          (fresh 4)).request_path
        (handle_client_request linux (incoming first_chunk) (memset0 linux.BUFSIZ)
          (fresh 4)).conn).calls = [bytes "GET /index"]
    ∧ first_chunk ++ second_chunk = bytes "GET /index.html HTTP/1.0\r\n\r\n" := by
  have h1 := handle_client_request_first_read linux (incoming first_chunk)
    (memset0 linux.BUFSIZ) (fresh 4) first_chunk [] (bytes "/index.html") linux.BUFSIZ rfl
    (by decide) rfl (by decide) (by decide) (by simp [memset0]) (by simp) (by simp)
    (by decide) (by decide) (by decide) (by decide)
  rw [h1]
  simp only
  have hr := receive_message_data linux (incoming second_chunk)
    (bytes "/index.html" ++ List.drop (bytes "/index.html").length [] ++
      List.replicate (linux.BUFSIZ - ((bytes "/index.html").length - ([] : List Byte).length)) 0)
    { fresh 4 with
      recv_buffer := first_chunk ++ List.replicate (linux.BUFSIZ - first_chunk.length) 0,
      recv_len := first_chunk.length, state := STATE_DATA_RECEIVED,
      pathname := linux.AWS_DOCUMENT_ROOT ++ (bytes "/index.html" ++
          List.drop (bytes "/index.html").length []) ++
        List.replicate (linux.BUFSIZ - (linux.AWS_DOCUMENT_ROOT.length +
          (bytes "/index.html" ++ List.drop (bytes "/index.html").length []).length)) 0 }
    first_chunk second_chunk (linux.BUFSIZ - first_chunk.length) rfl (by decide) (by decide)
    rfl (by decide) (by decide) (by decide)
  have h2 := (handle_client_request_on_path_calls linux (incoming second_chunk) _ _
    STATE_DATA_RECEIVED (by rw [hr]) (by decide)).2
  rw [h2, hr]
  simp only
  refine ⟨?_, by decide⟩
  have ht : List.take second_chunk.length (first_chunk ++ second_chunk ++
      List.replicate (linux.BUFSIZ - first_chunk.length - second_chunk.length) 0)
      = bytes "GET /index" := by
    rw [List.append_assoc, List.take_append_of_le_length (by decide)]
    decide
  rw [ht]
  simp [parser_ranges]

theorem receive_message_overflow (cfg : Config) (sys : Sys) (rp : List Byte)
    (conn : connection) (S d : List Byte) (k : Nat)
    (hbuf : conn.recv_buffer = S ++ List.replicate k 0) (hS : 0 ∉ S)
    (hpeer : 0 ≤ sys.peer_rc) (hrecv : sys.recv_in = some d)
    (hB : d.length ≤ cfg.BUFSIZ) (hfit : k < d.length) :
    (receive_message cfg sys rp conn).outcome = Outcome.overflow
      ∧ recv_calls (receive_message cfg sys rp conn).calls = [(S.length, cfg.BUFSIZ)] := by
  have hpeer1 : ¬ sys.peer_rc < 0 := not_lt.mpr hpeer
  have htake : d.take cfg.BUFSIZ = d := List.take_of_length_le hB
  have hw : write_at (S ++ List.replicate k 0) S.length d = none := by
    unfold write_at
    rw [if_neg (by simp only [List.length_append, List.length_replicate]; omega)]
  constructor
  · unfold receive_message
    simp only [hpeer1, if_false, hrecv, htake, hbuf, strlen_append_zeros S k hS, hw]
  · unfold receive_message
    simp only [hpeer1, if_false, hrecv, htake, hbuf, strlen_append_zeros S k hS, hw]
    simp [recv_calls]

/-- C10, the code at the failing input: a connection has received the single byte
`G` in a first read.  On the next read `receive_message` asks `recv` for up to
`BUFSIZ` = 8192 bytes to be stored at offset 1 of `recv_buffer`: offset plus count is
8193, past the 8192 bytes of the buffer; and when 8192 bytes are waiting on the socket
the store runs past the end of the buffer. -/
theorem second_read_asks_past_the_buffer :
    recv_calls (receive_message linux (incoming (bytes "ET")) (memset0 linux.BUFSIZ)
        (receive_message linux (incoming (bytes "G")) (memset0 linux.BUFSIZ)
          (fresh 4)).conn).calls = [(1, 8192)]
    ∧ linux.BUFSIZ < 1 + 8192
    ∧ (receive_message linux (incoming (List.replicate 8192 65)) (memset0 linux.BUFSIZ)
        (receive_message linux (incoming (bytes "G")) (memset0 linux.BUFSIZ)
          (fresh 4)).conn).outcome = Outcome.overflow := by
  have h1 := receive_message_data linux (incoming (bytes "G")) (memset0 linux.BUFSIZ)
    (fresh 4) [] (bytes "G") linux.BUFSIZ (by simp [fresh, connection_create, memset0])
    (by simp) (by decide) rfl (by decide) (by decide) (by decide)
  rw [h1]
  simp only [List.nil_append]
  have h2 := receive_message_data linux (incoming (bytes "ET")) (memset0 linux.BUFSIZ)
    { fresh 4 with
      recv_buffer := bytes "G" ++ List.replicate (linux.BUFSIZ - (bytes "G").length) 0,
      recv_len := (bytes "G").length, state := STATE_DATA_RECEIVED }
    (bytes "G") (bytes "ET") (linux.BUFSIZ - (bytes "G").length) rfl (by decide)
    (by decide) rfl (by decide) (by decide) (by decide)
  have h3 := receive_message_overflow linux (incoming (List.replicate 8192 65))
    (memset0 linux.BUFSIZ)
    { fresh 4 with
      recv_buffer := bytes "G" ++ List.replicate (linux.BUFSIZ - (bytes "G").length) 0,
      recv_len := (bytes "G").length, state := STATE_DATA_RECEIVED }
    (bytes "G") (List.replicate 8192 65) (linux.BUFSIZ - (bytes "G").length) rfl (by decide)
    (by decide) rfl (by rw [List.length_replicate]; exact Nat.le_refl _)
    (by rw [List.length_replicate]; decide)
  refine ⟨?_, by decide, h3.1⟩
  rw [h2]
  simp [recv_calls]
  decide

/-! ## The main loop -/

theorem strlen_le (s : List Byte) : strlen s ≤ s.length :=
  (List.takeWhile_sublist _).length_le

theorem handle_client_request_peer_closed (cfg : Config) (sys : Sys) (rp : List Byte)
    (conn : connection) (hpeer : 0 ≤ sys.peer_rc) (hrecv : sys.recv_in = some [])
    (hrm : 0 ≤ sys.epoll_remove_rc) :
    (handle_client_request cfg sys rp conn).outcome = Outcome.returned STATE_CONNECTION_CLOSED
      ∧ (handle_client_request cfg sys rp conn).freed = true
      ∧ (handle_client_request cfg sys rp conn).request_path = rp := by
  have hpeer1 : ¬ sys.peer_rc < 0 := not_lt.mpr hpeer
  have hrm1 : ¬ sys.epoll_remove_rc < 0 := not_lt.mpr hrm
  have hw : write_at conn.recv_buffer (strlen conn.recv_buffer) []
      = some (conn.recv_buffer.take (strlen conn.recv_buffer) ++ [] ++
          conn.recv_buffer.drop (strlen conn.recv_buffer + ([] : List Byte).length)) := by
    unfold write_at
    rw [if_pos (by simpa using strlen_le conn.recv_buffer)]
  have hr : (receive_message cfg sys rp conn).outcome = Outcome.returned STATE_CONNECTION_CLOSED
      ∧ (receive_message cfg sys rp conn).freed = true
      ∧ (receive_message cfg sys rp conn).request_path = rp := by
    unfold receive_message remove_connection
    simp only [hpeer1, if_false, hrecv, List.take_nil, hw, List.length_nil, if_true, hrm1]
    exact ⟨trivial, trivial, trivial⟩
  rw [handle_client_request_stops cfg sys rp conn (fun st h => by
    rw [hr.1] at h; exact (Outcome.returned.inj h).symm)]
  exact hr

theorem Server.call_live (srv : Server) (op : Op) (addr : Nat)
    (f : List Byte → connection → Option Result) (conn : connection) (r : Result)
    (hl : srv.heap.lookup addr = some conn) (hf : f srv.request_path conn = some r) :
    Server.call srv op addr f =
      (Status.of_outcome r.outcome,
       { listenfd := srv.listenfd, request_path := r.request_path,
         heap := Server.store srv.heap addr r.conn r.freed,
         log := srv.log ++ [(op, addr)] ++
           (if r.freed then [(Op.connection_remove, addr)] else []) }) := by
  unfold Server.call
  simp only [hl, hf]

theorem Server.call_freed (srv : Server) (op : Op) (addr : Nat)
    (f : List Byte → connection → Option Result) (hl : srv.heap.lookup addr = none) :
    Server.call srv op addr f =
      (Status.use_after_free op addr,
       { listenfd := srv.listenfd, request_path := srv.request_path, heap := srv.heap,
         log := srv.log ++ [(op, addr)] }) := by
  unfold Server.call
  simp only [hl]

theorem main_iteration_in (cfg : Config) (srv : Server) (w : Wakeup)
    (hwait : 0 ≤ w.wait_rc) (hdata : w.rev.data ≠ epoll_data.fd srv.listenfd)
    (hin : w.rev.events &&& EPOLLIN ≠ 0) (hout : w.rev.events &&& EPOLLOUT = 0) :
    main_iteration cfg srv w =
      Server.call srv Op.handle_client_request w.rev.data.as_ptr
        (fun rp conn => some (handle_client_request cfg w.sys rp conn)) := by
  unfold main_iteration
  rw [if_neg (not_lt.mpr hwait), if_neg hdata]
  simp only [hin, hout, ne_eq, not_false_eq_true, not_true_eq_false, and_false, if_true,
    if_false]

theorem main_iteration_in_out (cfg : Config) (srv srv1 : Server) (w : Wakeup)
    (hwait : 0 ≤ w.wait_rc) (hdata : w.rev.data ≠ epoll_data.fd srv.listenfd)
    (hin : w.rev.events &&& EPOLLIN ≠ 0) (hout : w.rev.events &&& EPOLLOUT ≠ 0)
    (hrun : Server.call srv Op.handle_client_request w.rev.data.as_ptr
        (fun rp conn => some (handle_client_request cfg w.sys rp conn))
      = (Status.running, srv1)) :
    main_iteration cfg srv w =
      Server.call srv1 Op.send_message w.rev.data.as_ptr
        (fun rp conn => send_message cfg w.sys w.fuel rp conn) := by
  unfold main_iteration
  rw [if_neg (not_lt.mpr hwait), if_neg hdata]
  simp only [hin, hout, ne_eq, not_false_eq_true, if_true, hrun, and_self]

/-- C7, the code at the failing input: a client connects, sends its request and
closes; the next event on the connection carries both EPOLLIN and EPOLLOUT.
`handle_client_request` runs `receive_message`, which reads 0 bytes and removes the
connection; the main loop then calls `send_message` on the same, freed, object. -/
theorem send_message_runs_on_removed_connection :
    (main_loop linux (Server.init linux 3) [accept_event, request_event, hangup_event]).1
      = Status.use_after_free Op.send_message 1000
    ∧ (main_loop linux (Server.init linux 3) [accept_event, request_event, hangup_event]).2.log
      = [(Op.connection_create, 1000), (Op.handle_client_request, 1000),
         (Op.handle_client_request, 1000), (Op.connection_remove, 1000),
         (Op.send_message, 1000)] := by
  have h1 : main_iteration linux (Server.init linux 3) accept_event =
      (Status.running,
        { listenfd := 3, request_path := memset0 linux.BUFSIZ, heap := [(1000, fresh 4)],
          log := [(Op.connection_create, 1000)] }) := by
    rfl
  have hreq := handle_client_request_first_read linux (incoming get_b)
    (memset0 linux.BUFSIZ) (fresh 4) get_b [] (bytes "/b") linux.BUFSIZ rfl
    (by decide) rfl (by decide) (by decide) (by simp [memset0]) (by simp) (by simp)
    (by decide) (by decide) (by decide) (by decide)
  have hout : (handle_client_request linux (incoming get_b) (memset0 linux.BUFSIZ)
      (fresh 4)).outcome = Outcome.done := by rw [hreq]; rfl
  have hfreed : (handle_client_request linux (incoming get_b) (memset0 linux.BUFSIZ)
      (fresh 4)).freed = false := by rw [hreq]
  have h2 : main_iteration linux
      { listenfd := 3, request_path := memset0 linux.BUFSIZ, heap := [(1000, fresh 4)],
        log := [(Op.connection_create, 1000)] } request_event =
      (Status.running,
        { listenfd := 3,
          request_path := (handle_client_request linux (incoming get_b)
            (memset0 linux.BUFSIZ) (fresh 4)).request_path,
          heap := [(1000, (handle_client_request linux (incoming get_b)
            (memset0 linux.BUFSIZ) (fresh 4)).conn)],
          log := [(Op.connection_create, 1000), (Op.handle_client_request, 1000)] }) := by
    rw [main_iteration_in linux _ request_event (by decide) (by decide) (by decide) (by decide),
      Server.call_live _ _ _ _ (fresh 4) _ (by rfl) (by rfl)]
    dsimp only [request_event, accept_event, epoll_data.as_ptr]
    rw [hout, hfreed]
    rfl
  obtain ⟨hc1, hc2, hc3⟩ := handle_client_request_peer_closed linux quiet
    (handle_client_request linux (incoming get_b) (memset0 linux.BUFSIZ) (fresh 4)).request_path
    (handle_client_request linux (incoming get_b) (memset0 linux.BUFSIZ) (fresh 4)).conn
    (by decide) rfl (by decide)
  have h3 : main_iteration linux
      { listenfd := 3,
        request_path := (handle_client_request linux (incoming get_b)
          (memset0 linux.BUFSIZ) (fresh 4)).request_path,
        heap := [(1000, (handle_client_request linux (incoming get_b)
          (memset0 linux.BUFSIZ) (fresh 4)).conn)],
        log := [(Op.connection_create, 1000), (Op.handle_client_request, 1000)] }
      hangup_event =
      (Status.use_after_free Op.send_message 1000,
        { listenfd := 3,
          request_path := (handle_client_request linux (incoming get_b)
            (memset0 linux.BUFSIZ) (fresh 4)).request_path,
          heap := [],
          log := [(Op.connection_create, 1000), (Op.handle_client_request, 1000),
                  (Op.handle_client_request, 1000), (Op.connection_remove, 1000),
                  (Op.send_message, 1000)] }) := by
    rw [main_iteration_in_out linux _
      { listenfd := 3,
        request_path := (handle_client_request linux (incoming get_b)
          (memset0 linux.BUFSIZ) (fresh 4)).request_path,
        heap := [],
        log := [(Op.connection_create, 1000), (Op.handle_client_request, 1000),
                (Op.handle_client_request, 1000), (Op.connection_remove, 1000)] }
      hangup_event (by decide) (by decide) (by decide) (by decide)
      (by
        rw [Server.call_live _ _ _ _ _ _ (by rfl) (by rfl)]
        dsimp only [hangup_event, accept_event, epoll_data.as_ptr]
        rw [hc1, hc2, hc3]
        rfl)]
    rw [Server.call_freed _ _ _ _ (by rfl)]
    simp only [hangup_event, accept_event, epoll_data.as_ptr, List.cons_append, List.nil_append]
  unfold main_loop
  rw [h1]
  simp only
  unfold main_loop
  rw [h2]
  simp only
  unfold main_loop
  rw [h3]
  exact ⟨rfl, rfl⟩

/-! ## Further concrete runs of `send_message` -/

/-- C6, witness: the file holds `abc` and the socket accepts at most 2 bytes per
`sendfile` call. -/
theorem transfer_loop_delivers_whole_file_witness :
    (∀ i, 1 ≤ i → ∃ c, (serving (bytes "abc") 8192 2).write_cap i = some c ∧ 1 ≤ c ∧ c ≤ 2)
    ∧ (bytes "abc").length ≤ 3
    ∧ (∀ (b : Int) (w : List Byte) (cs : List Call),
      ∃ s, sendfile_loop (serving (bytes "abc") 8192 2) (bytes "abc") (bytes "abc").length 3
          { sent := 0, bytes_sent := b, offset := 0, index := 1, wire := w, calls := cs }
            = some (LoopEnd.finished s)
        ∧ s.sent = ((bytes "abc").length : Int)
        ∧ moved_total s.calls = moved_total cs + ((bytes "abc").length : Int)
        ∧ s.wire = w ++ bytes "abc"
        ∧ (bytes "abc" = [] → s.calls = cs))
    ∧ (∃ r, send_message linux (serving (bytes "abc") 8192 2) 3 (memset0 8192) asked = some r
        ∧ moved_total r.calls = ((bytes "abc").length : Int)
        ∧ r.wire = STATUS_200.take 8192 ++ bytes "abc"
        ∧ (bytes "abc" = [] → sendfile_calls r.calls = [])) :=
  have hcap : ∀ i, 1 ≤ i →
      ∃ c, (serving (bytes "abc") 8192 2).write_cap i = some c ∧ 1 ≤ c ∧ c ≤ 2 :=
    fun i hi => ⟨2, by
      have : i ≠ 0 := by omega
      simp [serving, this], by decide, by decide⟩
  ⟨hcap, by decide,
   (transfer_loop_delivers_whole_file (serving (bytes "abc") 8192 2) (bytes "abc") 2 3 hcap
     (by decide)).1,
   (transfer_loop_delivers_whole_file (serving (bytes "abc") 8192 2) (bytes "abc") 2 3 hcap
     (by decide)).2 linux (memset0 8192) asked 8192 (serving_open _ _ _) (by decide) rfl
     (by decide) (by decide)⟩

/-- C8, counterexample to the claim as stated: the file holds the two bytes `ab` and
the socket accepts one byte per `sendfile` call.  One invocation of `send_message`
makes two `sendfile` calls, the second at offset 1 right after the first moved 1 byte
of the 2 remaining, and the connection is removed, not kept open. -/
theorem two_sendfile_calls_in_one_invocation :
    ∃ r, send_message linux (serving (bytes "ab") 8192 1) 2 (memset0 8192) asked = some r
      ∧ sendfile_calls r.calls = [(0, 1), (1, 1)] ∧ r.freed = true := by
  rw [send_message_opened linux _ 2 _ asked (bytes "ab") 8192 (serving_open _ _ _)
    (by decide) rfl (by decide) (by decide)]
  have h : sendfile_loop (serving (bytes "ab") 8192 1) (bytes "ab") (bytes "ab").length 2
      { sent := 0, bytes_sent := ((STATUS_200.take 8192).length : Int), offset := 0, index := 1,
        wire := STATUS_200.take 8192,
        calls := [Call.open_file (cstr asked.pathname) (serving (bytes "ab") 8192 1).new_fd,
                  Call.get_peer_address (serving (bytes "ab") 8192 1).peer_rc,
                  Call.send STATUS_200 ((STATUS_200.take 8192).length : Int),
                  Call.fstat (serving (bytes "ab") 8192 1).fstat_rc] }
      = some (LoopEnd.finished
        { sent := 2, bytes_sent := ((STATUS_200.take 8192).length : Int) + 1 + 1, offset := 2,
          index := 3, wire := STATUS_200.take 8192 ++ bytes "ab",
          calls := [Call.open_file (cstr asked.pathname) (serving (bytes "ab") 8192 1).new_fd,
                  Call.get_peer_address (serving (bytes "ab") 8192 1).peer_rc,
                  Call.send STATUS_200 ((STATUS_200.take 8192).length : Int),
                  Call.fstat (serving (bytes "ab") 8192 1).fstat_rc,
                  Call.sendfile 0 2 1, Call.sendfile 1 2 1] }) := by
    rfl
  rw [h]
  refine ⟨_, rfl, ?_, ?_⟩
  · rw [send_message_done_sendfile_calls]
    simp [sendfile_calls]
  · exact (send_message_done_closed _ _ _ _ _ (by decide) (by decide)).2

/-- C9, counterexample to the claim as stated: the file holds `abc`, `send` succeeds
and the first `sendfile` call returns an error.  `send_message` does not remove the
connection and does not return: the server process ends in `DIE("sendfile")`. -/
theorem failing_sendfile_ends_the_process :
    ∃ r, send_message linux (broken_pipe (bytes "abc")) 3 (memset0 8192) asked = some r
      ∧ r.outcome = Outcome.exited "sendfile" ∧ r.freed = false := by
  rw [send_message_opened linux _ 3 _ asked (bytes "abc") 8192 (broken_pipe_open _)
    (by decide) rfl (by decide) (by decide)]
  obtain ⟨s1, h1⟩ := sendfile_loop_dies (broken_pipe (bytes "abc")) (bytes "abc") 0 1 rfl
    (fun i h1 h2 => absurd h1 (by omega)) 0 3
    { sent := 0, bytes_sent := ((STATUS_200.take 8192).length : Int), offset := 0, index := 1,
      wire := STATUS_200.take 8192,
      calls := [Call.open_file (cstr asked.pathname) (broken_pipe (bytes "abc")).new_fd,
                Call.get_peer_address (broken_pipe (bytes "abc")).peer_rc,
                Call.send STATUS_200 ((STATUS_200.take 8192).length : Int),
                Call.fstat (broken_pipe (bytes "abc")).fstat_rc] }
    rfl (Nat.le_refl _) rfl (by decide) (by decide)
  rw [h1]
  exact ⟨_, rfl, rfl, rfl⟩

/-- C9, witness: `send` fails; `fstat` fails; the first `sendfile` call fails. -/
theorem send_message_error_outcomes_witness :
    (∃ r, send_message linux failing_send 3 (memset0 8192) asked = some r
        ∧ r.outcome = Outcome.returned STATE_CONNECTION_CLOSED ∧ r.freed = true)
    ∧ (∃ r, send_message linux failing_fstat 3 (memset0 8192) asked = some r
        ∧ r.outcome = Outcome.exited "fstat" ∧ r.freed = false)
    ∧ (∃ r, send_message linux (broken_pipe (bytes "abc")) 3 (memset0 8192) asked = some r
        ∧ r.outcome = Outcome.exited "sendfile" ∧ r.freed = false) :=
  ⟨(send_message_error_outcomes linux failing_send 3 (memset0 8192) asked (by decide)).1
      (Or.inl rfl) (by decide),
   (send_message_error_outcomes linux failing_fstat 3 (memset0 8192) asked (by decide)).2.1
      (bytes "abc") 8192 (serving_open (bytes "abc") 8192 8192) rfl (by decide) (by decide),
   (send_message_error_outcomes linux (broken_pipe (bytes "abc")) 3 (memset0 8192) asked
      (by decide)).2.2 (bytes "abc") 8192 1 0 (broken_pipe_open _) rfl (by decide) (by decide)
      (by decide) rfl (fun i h1 h2 => absurd h1 (by omega)) (by decide) (by decide)⟩

end Aws
